import Mathlib

/-!
Shallow embedding of the regime-based backtesting core of
`strategy_backtest.py` (HY-IG spread strategy backtest), together with
proofs checking the natural-language specification against it.

Modelling conventions:
* a pandas column is a `List (Option ℚ)`; `none` models a missing value (NaN),
  `some v` a present float value, with float arithmetic idealised as exact
  rational arithmetic;
* timestamps (the DataFrame index) are integer day numbers, so calendar-day
  differences are integer subtractions;
* float comparisons involving NaN are `false`, as in numpy;
* quantities whose float value can be irrational (standard deviations,
  compound annual growth rates) live in `ℝ`; an `Option ℝ` is used where the
  float can be NaN.
-/

/-- A pandas column entry: `none` is NaN, `some v` a present value. -/
abbrev OQ := Option ℚ

/-- Float `<=` under NaN semantics: any comparison with NaN is false. -/
def oleB : OQ → OQ → Bool
  | some a, some b => a ≤ b
  | _, _ => false

/-- Float `<` under NaN semantics: any comparison with NaN is false. -/
def oltB : OQ → OQ → Bool
  | some a, some b => a < b
  | _, _ => false

/-- The five spread regimes plus `unknown`, mirroring the string labels of
`backtest_strategy` (`Low Spread (Buy)`, ..., `Unknown`). -/
inductive Regime
  | lowSpread
  | moderateLow
  | moderateHigh
  | highSpread
  | veryHighSpread
  | unknown
  deriving DecidableEq, Repr

/-- The `POSITION_SIZES` lookup table; total, so the `.map(...).fillna(0.50)`
step never fires for a `Regime` produced by the classifier. -/
def positionSize : Regime → ℚ
  | .lowSpread => 1
  | .moderateLow => 3/4
  | .moderateHigh => 1/2
  | .highSpread => 1/4
  | .veryHighSpread => 1/10
  | .unknown => 1/2

/-- `RISK_FREE_RATE = 4.0` (module-level constant). -/
def RISK_FREE_RATE : ℚ := 4

/-- The trailing window of the rolling quantile at position `i`: raw window
positions `[i+1-window, i]`, with missing values dropped (pandas counts only
non-NaN observations against `min_periods`). -/
def windowVals (xs : List OQ) (window i : ℕ) : List ℚ :=
  ((xs.take (i + 1)).drop (i + 1 - window)).filterMap id

/-- Linear-interpolation quantile of an (already sorted) nonempty sample,
as `Series.rolling(...).quantile(q)` computes it: with `h = q*(n-1)`,
`i = ⌊h⌋`, the result is `x_i + (h - i) * (x_{i+1} - x_i)`. -/
def quantileSorted (xs : List ℚ) (q : ℚ) : ℚ :=
  let n : ℕ := xs.length
  let h : ℚ := q * ((n : ℚ) - 1)
  let i : ℕ := (⌊h⌋).toNat
  let lo : ℚ := xs.getD i 0
  let hi : ℚ := xs.getD (i + 1) lo
  lo + (h - (i : ℚ)) * (hi - lo)

/-- `Series.rolling(window=window, min_periods=minp).quantile(q)`:
at each position, the linearly interpolated quantile of the sorted non-missing
trailing-window observations, or NaN when fewer than `minp` of them exist. -/
def rollingQuantile (xs : List OQ) (window minp : ℕ) (q : ℚ) : List OQ :=
  (List.range xs.length).map fun i =>
    let vs := windowVals xs window i
    if minp ≤ vs.length then some (quantileSorted (vs.insertionSort (· ≤ ·)) q) else none

/-- `Spread_P25` column of `calculate_spread_percentiles` (window 60, min_periods 12). -/
def spreadP25 (sp : List OQ) : List OQ := rollingQuantile sp 60 12 (1/4)

/-- `Spread_P50` column of `calculate_spread_percentiles`. -/
def spreadP50 (sp : List OQ) : List OQ := rollingQuantile sp 60 12 (1/2)

/-- `Spread_P75` column of `calculate_spread_percentiles`. -/
def spreadP75 (sp : List OQ) : List OQ := rollingQuantile sp 60 12 (3/4)

/-- `Spread_P90` column of `calculate_spread_percentiles`. -/
def spreadP90 (sp : List OQ) : List OQ := rollingQuantile sp 60 12 (9/10)

/-- The `np.select(conditions, choices, default='Unknown')` regime assignment
of `backtest_strategy`, evaluated pointwise: the first true condition wins,
and every comparison with NaN is false. -/
def classifyRegime (s p1 p2 p3 p4 : OQ) : Regime :=
  if oleB s p1 then .lowSpread
  else if oltB p1 s && oleB s p2 then .moderateLow
  else if oltB p2 s && oleB s p3 then .moderateHigh
  else if oltB p3 s && oleB s p4 then .highSpread
  else if oltB p4 s then .veryHighSpread
  else if s.isNone then .unknown
  else .unknown

/-- The `Regime` column of `backtest_strategy`: thresholds from
`calculate_spread_percentiles`, then the vectorised `np.select` assignment. -/
def regimeSeries (sp : List OQ) : List Regime :=
  (List.range sp.length).map fun i =>
    classifyRegime (sp.getD i none) ((spreadP25 sp).getD i none)
      ((spreadP50 sp).getD i none) ((spreadP75 sp).getD i none)
      ((spreadP90 sp).getD i none)

/-- Per-step rate-change classification labels (`Fed_Rate_Change_Type`). -/
inductive RateCls
  | increase
  | decrease
  | noChange
  deriving DecidableEq, Repr

/-- `Series.ffill()` with an explicit carried last-seen value. -/
def ffillAux : OQ → List OQ → List OQ
  | _, [] => []
  | last, none :: rest => last :: ffillAux last rest
  | _, some v :: rest => some v :: ffillAux (some v) rest

/-- `df['FEDFUNDS'].ffill()`: each missing entry is replaced by the most
recent preceding present value (leading missing entries stay missing). -/
def ffill (xs : List OQ) : List OQ := ffillAux none xs

/-- `Series.diff()`: `x[i] - x[i-1]`, NaN at position 0 and wherever either
operand is NaN. -/
def diffList (xs : List OQ) : List OQ :=
  (List.range xs.length).map fun i =>
    match i with
    | 0 => none
    | j + 1 =>
      match xs.getD (j + 1) none, xs.getD j none with
      | some a, some b => some (a - b)
      | _, _ => none

/-- The two `.loc` masks of `identify_fed_rate_changes` with `threshold = 0.05`:
diff strictly above `0.05` is `increase`, strictly below `-0.05` is
`decrease`, everything else (including NaN diffs) keeps the default `none`. -/
def classifyDiff (d : OQ) : RateCls :=
  match d with
  | Option.none => .noChange
  | some v => if (1/20 : ℚ) < v then .increase else if v < -(1/20) then .decrease else .noChange

/-- The `Fed_Rate_Change_Type` column: forward fill, one-step difference,
then the threshold classification. -/
def fedClassSeries (fed : List OQ) : List RateCls :=
  (diffList (ffill fed)).map classifyDiff

/-- A `rate_periods` record: a maximal contiguous run of one non-`none`
classification. The source stores `str(idx)` timestamps; here positions in
the series stand in for the corresponding index entries. -/
structure RatePeriod where
  type : RateCls
  startIdx : ℕ
  endIdx : ℕ
  deriving DecidableEq, Repr

/-- The period-building loop of `identify_fed_rate_changes`: `lastIdx` is
`df.index[-1]` (used to close a period still open at series end), `i` the
current row position, and the `Option (RateCls × ℕ)` the in-progress
`current_period`. -/
def buildPeriodsGo (lastIdx : ℕ) : ℕ → Option (RateCls × ℕ) → List RateCls → List RatePeriod
  | _, Option.none, [] => []
  | _, some (t, s), [] => [⟨t, s, lastIdx⟩]
  | i, cur, c :: rest =>
    if c ≠ .noChange then
      match cur with
      | some (t, s) =>
        if t ≠ c then ⟨t, s, i⟩ :: buildPeriodsGo lastIdx (i + 1) (some (c, i)) rest
        else buildPeriodsGo lastIdx (i + 1) (some (t, s)) rest
      | Option.none => buildPeriodsGo lastIdx (i + 1) (some (c, i)) rest
    else
      match cur with
      | some (t, s) => ⟨t, s, i⟩ :: buildPeriodsGo lastIdx (i + 1) Option.none rest
      | Option.none => buildPeriodsGo lastIdx (i + 1) Option.none rest

/-- The list of `rate_periods` built from the classification column. -/
def buildRatePeriods (cls : List RateCls) : List RatePeriod :=
  buildPeriodsGo (cls.length - 1) 0 Option.none cls

/-- One input row of the monthly DataFrame: index date (day number),
`HY_IG_Spread`, `SPY_Returns`, `FEDFUNDS`. -/
structure InRow where
  date : ℤ
  spread : OQ
  spy : OQ
  fed : OQ
  deriving DecidableEq, Repr

/-- The input DataFrame: its rows plus whether the `FEDFUNDS` column exists
at all (a wholly absent column versus a present all-NaN one). -/
structure DFIn where
  hasFed : Bool
  rows : List InRow
  deriving DecidableEq, Repr

instance : Inhabited InRow := ⟨⟨0, none, none, none⟩⟩

/-- The value returned by `identify_fed_rate_changes`: the guarded early
branch returns only the DataFrame (modelled by its classification column),
the normal branch returns the `(df, rate_periods)` tuple. -/
inductive FedResult
  | single (cls : List RateCls)
  | withPeriods (cls : List RateCls) (periods : List RatePeriod)
  deriving DecidableEq, Repr

/-- `identify_fed_rate_changes`: if `FEDFUNDS` is absent or entirely NaN, the
function sets the classification column to all-`none` and returns just `df`
(`return df`); otherwise it classifies and returns `df, rate_periods`. -/
def identify_fed_rate_changes (df : DFIn) : FedResult :=
  let fed := df.rows.map (·.fed)
  if !df.hasFed || fed.all (·.isNone) then
    .single (List.replicate df.rows.length .noChange)
  else
    let cls := fedClassSeries fed
    .withPeriods cls (buildRatePeriods cls)

/-- Python exceptions that the modelled code can raise. -/
inductive PyError
  | zeroDivision
  | valueErrorUnpack
  deriving DecidableEq, Repr

/-- The call site in `run_backtest`: when the `FEDFUNDS` column exists it
executes `df, rate_periods = identify_fed_rate_changes(df)`. Unpacking a bare
DataFrame iterates over its column names; this DataFrame always has more than
two columns (spread, returns, FEDFUNDS plus the two added ones), so the
unpacking of a `single` result raises `ValueError`. Without the column the
call is skipped and `rate_periods = []`. -/
def runBacktestFedStep (df : DFIn) : Except PyError (List RateCls × List RatePeriod) :=
  if df.hasFed then
    match identify_fed_rate_changes df with
    | .withPeriods cls ps => .ok (cls, ps)
    | .single _ => .error .valueErrorUnpack
  else
    .ok (List.replicate df.rows.length .noChange, [])

/-- Cumulative product on a fully present series. -/
def cumprod : ℚ → List ℚ → List ℚ
  | _, [] => []
  | acc, v :: rest => (acc * v) :: cumprod (acc * v) rest

/-- `Series.cumprod()` with default `skipna=True`: NaN entries stay NaN in
the output and are skipped (treated as 1) by the running product. -/
def cumprodSkip : ℚ → List OQ → List OQ
  | _, [] => []
  | acc, none :: rest => none :: cumprodSkip acc rest
  | acc, some v :: rest => some (acc * v) :: cumprodSkip (acc * v) rest

/-- `Series.cummax()` with default `skipna=True`: NaN entries stay NaN and
are skipped by the running maximum. -/
def cummaxSkip : OQ → List OQ → List OQ
  | _, [] => []
  | cur, none :: rest => none :: cummaxSkip cur rest
  | cur, some v :: rest =>
    let m := match cur with
      | Option.none => v
      | some c => max c v
    some m :: cummaxSkip (some m) rest

/-- One entry of a drawdown column: `(cum / max - 1) * 100`, NaN when either
operand is NaN or when the running maximum is `0` (in that case the
cumulative value is necessarily `0` too, and numpy's `0.0/0.0` is NaN). -/
def ddF : OQ → OQ → OQ
  | some cv, some mv => if mv = 0 then none else some ((cv / mv - 1) * 100)
  | _, _ => none

/-- A drawdown column `(cum / cum.cummax() - 1) * 100` of `backtest_strategy`. -/
def drawdownSeries (cum : List OQ) : List OQ :=
  List.zipWith ddF cum (cummaxSkip none cum)

/-- The derived columns produced by `backtest_strategy`. -/
structure BtOut where
  regimes : List Regime
  posSizes : List ℚ
  stratRet : List ℚ
  spyCum : List OQ
  stratCum : List OQ
  spyDD : List OQ
  stratDD : List OQ

/-- `backtest_strategy`: regimes from the rolling thresholds, the position
size lookup, `Strategy_Return = Position_Size * SPY_Returns` followed by
`.fillna(0)` (a missing benchmark return contributes `0`), the two cumulative
curves `cumprod(1 + r/100)`, and the two drawdown columns. -/
def backtest_strategy (rows : List InRow) : BtOut :=
  let sp := rows.map (·.spread)
  let regimes := regimeSeries sp
  let pos := regimes.map positionSize
  let spy := rows.map (·.spy)
  let stratRet := List.zipWith
    (fun p r =>
      match r with
      | some v => p * v
      | Option.none => 0)
    pos spy
  let spyCum := cumprodSkip 1 (spy.map (Option.map (fun r => 1 + r / 100)))
  let stratCum := cumprodSkip 1 (stratRet.map (fun r => some (1 + r / 100)))
  { regimes := regimes
    posSizes := pos
    stratRet := stratRet
    spyCum := spyCum
    stratCum := stratCum
    spyDD := drawdownSeries spyCum
    stratDD := drawdownSeries stratCum }

/-- One row of the backtested DataFrame as the metrics calculators see it:
the columns they read, in `Option` form (NaN possible in any of them). -/
structure PRow where
  date : ℤ
  spyRet : OQ
  stratRet : OQ
  spyCum : OQ
  stratCum : OQ
  spyDD : OQ
  stratDD : OQ
  deriving DecidableEq, Repr

/-- The backtested DataFrame rows corresponding to an input row list: the
glue between `backtest_strategy` and the metrics calculators
(`Strategy_Return` is total after its `fillna(0)`). -/
def toPRows (rows : List InRow) : List PRow :=
  let bt := backtest_strategy rows
  (List.range rows.length).map fun i =>
    { date := (rows.getD i default).date
      spyRet := (rows.getD i default).spy
      stratRet := some (bt.stratRet.getD i 0)
      spyCum := bt.spyCum.getD i none
      stratCum := bt.stratCum.getD i none
      spyDD := bt.spyDD.getD i none
      stratDD := bt.stratDD.getD i none }

/-- Unbiased sample variance (`ddof=1`), the square of `Series.std()`;
`0` when fewer than two observations (only used under that guard). -/
def sampleVar (xs : List ℚ) : ℚ :=
  if xs.length ≤ 1 then 0
  else
    let n : ℚ := xs.length
    let m : ℚ := xs.sum / n
    (xs.map (fun x => (x - m) ^ 2)).sum / (n - 1)

/-- `Series.std() * np.sqrt(12)` as an exact real; `none` is the NaN that
pandas returns for a sample of fewer than two observations. -/
noncomputable def annStd (xs : List ℚ) : Option ℝ :=
  if xs.length ≤ 1 then none
  else some (Real.sqrt (sampleVar xs) * Real.sqrt 12)

/-- `excess / vol if vol > 0 else 0` with float semantics: a NaN volatility
fails the `> 0` test (giving `0`), and a NaN numerator over a positive
volatility stays NaN. -/
noncomputable def ratioOrZero (excess : Option ℝ) (vol : Option ℝ) : Option ℝ :=
  match vol with
  | some v => if 0 < v then excess.map (· / v) else some 0
  | Option.none => some 0

/-- `Series.min()` with default `skipna=True`: NaN entries are ignored, and
an empty or all-NaN series yields NaN. -/
def minOpt (xs : List OQ) : OQ :=
  xs.foldl
    (fun acc x =>
      match acc, x with
      | Option.none, v => v
      | some a, Option.none => some a
      | some a, some b => some (min a b))
    none

/-- Pointwise combination of two possibly-NaN floats. -/
def omap2 (f : ℚ → ℚ → ℚ) : OQ → OQ → OQ
  | some a, some b => some (f a b)
  | _, _ => none

/-- Pointwise combination of two possibly-NaN reals. -/
def omap2R (f : ℝ → ℝ → ℝ) : Option ℝ → Option ℝ → Option ℝ
  | some a, some b => some (f a b)
  | _, _ => none

/-- `((g) ** (1/n_years) - 1) * 100`, the compound annual growth rate used by
both metrics calculators, as a real (`**` is real exponentiation). -/
noncomputable def annualize (g : ℚ) (years : ℚ) : ℝ :=
  (Real.rpow (g : ℝ) (1 / (years : ℝ)) - 1) * 100

instance : Inhabited PRow := ⟨⟨0, none, none, none, none, none, none⟩⟩

/-- One leg (strategy or SPY) of the per-period metrics dictionary built by
`calculate_period_metrics`. All of its float fields are plain numbers
(the guards in the source keep NaN out of them); `sharpe` models the
source's `sharpe_ratio` key, and `calculate_period_metrics` computes no
sortino. `max_drawdown` is a `Series.min()`, hence possibly NaN. -/
structure LegMetrics where
  total_return : ℚ
  annualized_return : ℝ
  volatility : ℝ
  sharpe : ℝ
  max_drawdown : OQ
  win_rate : ℚ

/-- The dictionary returned by `calculate_period_metrics`. -/
structure PeriodMetrics where
  n_months : ℕ
  strategy : LegMetrics
  spy : LegMetrics

/-- The zero-filled leg of the `len(period_returns) == 0` early return. -/
def zeroLegMetrics : LegMetrics :=
  { total_return := 0
    annualized_return := 0
    volatility := 0
    sharpe := 0
    max_drawdown := some 0
    win_rate := 0 }

/-- The zero-filled dictionary of the `len(period_returns) == 0` early
return of `calculate_period_metrics`. -/
def zeroPeriodMetrics : PeriodMetrics :=
  { n_months := 0, strategy := zeroLegMetrics, spy := zeroLegMetrics }

/-- One leg of `calculate_period_metrics` on the non-empty branch:
`rets` is the already-`dropna`ed return column, `dd` the corresponding
whole-series drawdown column restricted to the period's rows, and `nMonths`
is `len(period_data)` (shared by both legs). -/
noncomputable def periodLeg (rets : List ℚ) (dd : List OQ) (nMonths : ℕ) : LegMetrics :=
  let cums := cumprod 1 (rets.map (fun r => 1 + r / 100))
  let ratio : ℚ := cums.getLastD 0 / cums.headD 0
  let total : ℚ := if 0 < cums.length then (ratio - 1) * 100 else 0
  let nYears : ℚ := (nMonths : ℚ) / 12
  let ann : ℝ :=
    if 0 < nYears then (if 0 < cums.length then annualize ratio nYears else 0) else 0
  let vol : ℝ :=
    if 1 < rets.length then Real.sqrt (sampleVar rets) * Real.sqrt 12 else 0
  let excess : ℝ := ann - ((RISK_FREE_RATE : ℚ) : ℝ)
  let sharpe : ℝ := if 0 < vol then excess / vol else 0
  let win : ℚ :=
    if 0 < rets.length then ((rets.countP (fun x => 0 < x) : ℕ) : ℚ) / (rets.length : ℚ) * 100 else 0
  { total_return := total
    annualized_return := ann
    volatility := vol
    sharpe := sharpe
    max_drawdown := minOpt dd
    win_rate := win }

/-- `calculate_period_metrics`: drops NaN from each return column
independently, returns the zero-filled dictionary when the strategy column
has no non-missing entry, and otherwise computes both legs over the subset
(with `n_months = len(period_data)` counting every row of the subset). -/
noncomputable def calculate_period_metrics (rows : List PRow) : PeriodMetrics :=
  let period_returns := rows.filterMap (·.stratRet)
  let spy_returns := rows.filterMap (·.spyRet)
  if period_returns.length = 0 then zeroPeriodMetrics
  else
    { n_months := rows.length
      strategy := periodLeg period_returns (rows.map (·.stratDD)) rows.length
      spy := periodLeg spy_returns (rows.map (·.spyDD)) rows.length }

/-- One leg of the dictionary returned by `calculate_performance_metrics`;
`sharpe`/`sortino` model the source's `sharpe_ratio`/`sortino_ratio` keys.
`Option` fields are NaN-prone floats. -/
structure FullLeg where
  total_return : OQ
  annualized_return : Option ℝ
  excess_return : Option ℝ
  volatility : Option ℝ
  sharpe : Option ℝ
  sortino : Option ℝ
  max_drawdown : OQ
  win_rate : ℚ
  n_months : ℕ

/-- The `outperformance` sub-dictionary (strategy minus SPY). -/
structure Outperf where
  total_return : OQ
  annualized_return : Option ℝ
  sharpe_improvement : Option ℝ
  sortino_improvement : Option ℝ
  max_dd_improvement : OQ

/-- The dictionary returned by `calculate_performance_metrics` on success.
The `regime_stats` groupby summary table is not modelled. -/
structure FullMetrics where
  spy : FullLeg
  strategy : FullLeg
  outperformance : Outperf
  risk_free_rate : ℚ

/-- One leg of `calculate_performance_metrics`: `rets` is the return column
over `df_clean`, `cumCol`/`dd` the cumulative and drawdown columns restricted
to `df_clean`, `nYears` the calendar-day span over 365.25, `n = len(df_clean)`. -/
noncomputable def wholeLeg (rets : List ℚ) (cumCol dd : List OQ) (nYears : ℚ) (n : ℕ)
    (rfr : ℚ) : FullLeg :=
  let first := cumCol.headD none
  let last := cumCol.getLastD none
  let total : OQ := omap2 (fun a b => (a / b - 1) * 100) last first
  let ann : Option ℝ := (omap2 (fun a b => a / b) last first).map (fun g => annualize g nYears)
  let excess : Option ℝ := ann.map (fun a => a - ((rfr : ℚ) : ℝ))
  let vol : Option ℝ := annStd rets
  let downside := rets.filter (fun r => r < 0)
  let dvol : Option ℝ := if 0 < downside.length then annStd downside else some 0
  { total_return := total
    annualized_return := ann
    excess_return := excess
    volatility := vol
    sharpe := ratioOrZero excess vol
    sortino := ratioOrZero excess dvol
    max_drawdown := minOpt dd
    win_rate := ((rets.countP (fun x => 0 < x) : ℕ) : ℚ) / (n : ℚ) * 100
    n_months := n }

/-- `calculate_performance_metrics`: keeps the rows where both return columns
are present, returns `None` (`.ok none`) when none remain, and otherwise
computes both legs with `n_years` from the calendar-day span over `365.25`.
When that span is zero the source evaluates `1/n_years` with `n_years = 0.0`
and raises `ZeroDivisionError` (there is no `years <= 0` guard on this path),
modelled as `.error .zeroDivision`. -/
noncomputable def calculate_performance_metrics (rows : List PRow) (rfr : ℚ) :
    Except PyError (Option FullMetrics) :=
  let clean := rows.filter (fun r => r.spyRet.isSome && r.stratRet.isSome)
  if clean.length = 0 then .ok none
  else
    let nYears : ℚ := ((((clean.getLastD default).date - (clean.headD default).date : ℤ) : ℚ)) / (1461/4)
    if nYears = 0 then .error .zeroDivision
    else
      let spyRets := clean.filterMap (·.spyRet)
      let stratRets := clean.filterMap (·.stratRet)
      let n := clean.length
      let spy := wholeLeg spyRets (clean.map (·.spyCum)) (clean.map (·.spyDD)) nYears n rfr
      let strat := wholeLeg stratRets (clean.map (·.stratCum)) (clean.map (·.stratDD)) nYears n rfr
      .ok (some
        { spy := spy
          strategy := strat
          outperformance :=
            { total_return := omap2 (fun a b => a - b) strat.total_return spy.total_return
              annualized_return := omap2R (fun a b => a - b) strat.annualized_return spy.annualized_return
              sharpe_improvement := omap2R (fun a b => a - b) strat.sharpe spy.sharpe
              sortino_improvement := omap2R (fun a b => a - b) strat.sortino spy.sortino
              max_dd_improvement := omap2 (fun a b => a - b) strat.max_drawdown spy.max_drawdown }
          risk_free_rate := rfr })

/-- Modelled from the spec (for comparison with the code, claim C8): the
"minimum (most negative) value of the subset's own DrawdownSeries" — the
drawdown series recomputed from the subset's own returns, compounded from a
fresh base with the subset's own running maximum. -/
def specOwnMaxDrawdown (rets : List ℚ) : OQ :=
  minOpt (drawdownSeries (cumprodSkip 1 (rets.map (fun r => some (1 + r / 100)))))

/-- Projection used to compare the two metric paths: the SPY `n_months`
field of a `calculate_performance_metrics` result, when one was produced. -/
def exNMonthsSpy : Except PyError (Option FullMetrics) → Option ℕ
  | .ok (some m) => some m.spy.n_months
  | _ => none

/-- Projection used to compare the two metric paths: the SPY
`annualized_return` field of a `calculate_performance_metrics` result. -/
noncomputable def exAnnSpy : Except PyError (Option FullMetrics) → Option (Option ℝ)
  | .ok (some m) => some m.spy.annualized_return
  | _ => none

section Lemmas

/-- `getD` through a `map` at an in-range position. -/
theorem getD_map_lt {α β : Type} (f : α → β) (l : List α) (i : ℕ) (d : β) (d2 : α)
    (hi : i < l.length) : (l.map f).getD i d = f (l.getD i d2) := by
  rw [List.getD_eq_getElem (l.map f) d (by simpa using hi), List.getElem_map,
    List.getD_eq_getElem l d2 hi]

/-- `getD` of a function table built over `List.range`. -/
theorem getD_range_map {α : Type} (f : ℕ → α) (n i : ℕ) (d : α) (hi : i < n) :
    ((List.range n).map f).getD i d = f i := by
  rw [getD_map_lt f (List.range n) i d 0 (by simpa using hi), List.getD_eq_getElem _ _ (by simpa using hi),
    List.getElem_range]

theorem length_ffillAux (xs : List OQ) : ∀ acc, (ffillAux acc xs).length = xs.length := by
  induction xs with
  | nil => intro acc; rfl
  | cons x rest ih => intro acc; cases x <;> simp [ffillAux, ih]

theorem length_ffill (xs : List OQ) : (ffill xs).length = xs.length :=
  length_ffillAux xs none

theorem length_diffList (xs : List OQ) : (diffList xs).length = xs.length := by
  simp [diffList]

theorem length_cumprodSkip (xs : List OQ) : ∀ a, (cumprodSkip a xs).length = xs.length := by
  induction xs with
  | nil => intro a; rfl
  | cons x rest ih => intro a; cases x <;> simp [cumprodSkip, ih]

theorem length_cummaxSkip (xs : List OQ) : ∀ c, (cummaxSkip c xs).length = xs.length := by
  induction xs with
  | nil => intro c; rfl
  | cons x rest ih => intro c; cases x <;> simp [cummaxSkip, ih]

theorem length_drawdownSeries (cum : List OQ) : (drawdownSeries cum).length = cum.length := by
  simp [drawdownSeries, length_cummaxSkip]

theorem length_regimeSeries (sp : List OQ) : (regimeSeries sp).length = sp.length := by
  simp [regimeSeries]

theorem length_stratRet (rows : List InRow) :
    (backtest_strategy rows).stratRet.length = rows.length := by
  simp [backtest_strategy, length_regimeSeries]

theorem length_stratCum (rows : List InRow) :
    (backtest_strategy rows).stratCum.length = rows.length := by
  simp [backtest_strategy, length_cumprodSkip, length_regimeSeries]

theorem length_spyCum (rows : List InRow) :
    (backtest_strategy rows).spyCum.length = rows.length := by
  simp [backtest_strategy, length_cumprodSkip]

end Lemmas

theorem ffillAux_getD_some (xs : List OQ) : ∀ (acc : OQ) (i : ℕ) (a : ℚ),
    xs.getD i none = some a → (ffillAux acc xs).getD i none = some a := by
  induction xs with
  | nil => intro acc i a h; simp [List.getD] at h
  | cons x rest ih =>
    intro acc i a h
    cases i with
    | zero =>
      cases x with
      | none => simp [List.getD_cons_zero] at h
      | some v => simpa [ffillAux, List.getD_cons_zero] using h
    | succ j =>
      cases x with
      | none =>
        simpa [ffillAux, List.getD_cons_succ] using
          ih acc j a (by simpa [List.getD_cons_succ] using h)
      | some v =>
        simpa [ffillAux, List.getD_cons_succ] using
          ih (some v) j a (by simpa [List.getD_cons_succ] using h)

theorem fedClassSeries_getD (fed : List OQ) (i : ℕ) (hi : i < fed.length) :
    (fedClassSeries fed).getD i .noChange = classifyDiff ((diffList (ffill fed)).getD i none) := by
  unfold fedClassSeries
  refine getD_map_lt classifyDiff _ i _ none ?_
  rw [length_diffList, length_ffill]; exact hi

/-- Claim C5: the per-step policy-rate classification is `increase` exactly
when the (forward-filled) one-step difference strictly exceeds `0.05`,
`decrease` exactly when it is strictly below `-0.05`, and `none` otherwise;
a difference of exactly `0.05` is classified `none`; and at a step where the
covariate itself is present on both sides, the difference used is the plain
one-step difference of the covariate. -/
theorem claim_C5 (fed : List OQ) (i : ℕ) (hi : i < fed.length) :
    (((fedClassSeries fed).getD i .noChange = .increase) ↔
      ∃ v : ℚ, (diffList (ffill fed)).getD i none = some v ∧ 1/20 < v) ∧
    (((fedClassSeries fed).getD i .noChange = .decrease) ↔
      ∃ v : ℚ, (diffList (ffill fed)).getD i none = some v ∧ v < -(1/20)) ∧
    (((fedClassSeries fed).getD i .noChange = .noChange) ↔
      ∀ v : ℚ, (diffList (ffill fed)).getD i none = some v → -(1/20) ≤ v ∧ v ≤ 1/20) ∧
    ((diffList (ffill fed)).getD i none = some (1/20) →
      (fedClassSeries fed).getD i .noChange = .noChange) ∧
    (∀ (j : ℕ) (a b : ℚ), i = j + 1 → fed.getD i none = some a → fed.getD j none = some b →
      (diffList (ffill fed)).getD i none = some (a - b)) := by
  rw [fedClassSeries_getD fed i hi]
  refine ⟨?_, ?_, ?_, ?_, ?_⟩
  · cases hd : (diffList (ffill fed)).getD i none with
    | none => simp [classifyDiff]
    | some v =>
      simp only [classifyDiff]
      split_ifs with h1 h2 <;> simp_all
  · cases hd : (diffList (ffill fed)).getD i none with
    | none => simp [classifyDiff]
    | some v =>
      simp only [classifyDiff]
      split_ifs with h1 h2 <;> simp_all
      all_goals linarith
  · cases hd : (diffList (ffill fed)).getD i none with
    | none => simp [classifyDiff]
    | some v =>
      simp only [classifyDiff]
      split_ifs with h1 h2 <;> simp_all
  · intro hd
    rw [hd]
    simp only [classifyDiff]
    split_ifs with h1 h2 <;> first | rfl | linarith
  · intro j a b hij ha hb
    subst hij
    have h1 : (ffill fed).getD (j + 1) none = some a := ffillAux_getD_some fed none (j + 1) a ha
    have h2 : (ffill fed).getD j none = some b := ffillAux_getD_some fed none j b hb
    unfold diffList
    rw [getD_range_map _ _ (j + 1) none (by rw [length_ffill]; exact hi)]
    show (match (ffill fed).getD (j + 1) none, (ffill fed).getD j none with
      | some a, some b => some (a - b)
      | _, _ => none) = some (a - b)
    rw [h1, h2]

/-- The witness input of claim C5: a two-step policy-rate series whose
one-step difference is exactly the `0.05` threshold, classified `none`. -/
theorem claim_C5_witness :
    (fedClassSeries [some 2, some (41/20)]).getD 1 .noChange = .noChange := by
  have h := (claim_C5 [some 2, some (41/20)] 1 (by decide)).2.2.2.2 0 (41/20) 2 rfl rfl rfl
  have h2 : (41/20 - 2 : ℚ) = 1/20 := by norm_num
  exact (claim_C5 [some 2, some (41/20)] 1 (by decide)).2.2.2.1 (by rw [h, h2])

theorem getLast?_cons_or {α : Type} (a : α) (l : List α) :
    (a :: l).getLast? = l.getLast?.or (some a) := by
  cases l with
  | nil => rfl
  | cons b m =>
    rw [List.getLast?_cons_cons]
    cases h : (b :: m).getLast? with
    | none => exact absurd h (by simp)
    | some x => simp

theorem ffillAux_getD (xs : List OQ) : ∀ (acc : OQ) (i : ℕ), i < xs.length →
    (ffillAux acc xs).getD i none = (((xs.take (i + 1)).filterMap id).getLast?).or acc := by
  induction xs with
  | nil => intro acc i h; simp at h
  | cons x rest ih =>
    intro acc i h
    cases i with
    | zero =>
      cases x with
      | none => simp [ffillAux]
      | some v => simp [ffillAux]
    | succ j =>
      have hj : j < rest.length := by simpa using h
      cases x with
      | none =>
        simpa [ffillAux, List.getD_cons_succ, List.take_succ_cons, List.filterMap_cons]
          using ih acc j hj
      | some v =>
        have hih := ih (some v) j hj
        calc (ffillAux (some v) (some v :: rest)).getD (j + 1) none
            = (ffillAux (some v) rest).getD j none := by simp [ffillAux, List.getD_cons_succ]
          _ = (((rest.take (j + 1)).filterMap id).getLast?).or (some v) := hih
          _ = ((((some v :: rest).take (j + 2)).filterMap id).getLast?).or acc := by
              rw [List.take_succ_cons, List.filterMap_cons]
              simp only [id]
              rw [getLast?_cons_or v ((rest.take (j + 1)).filterMap id), Option.or_assoc,
                Option.or_some]

theorem getD_zipWith_lt {α β γ : Type} (f : α → β → γ) (as : List α) (bs : List β) (i : ℕ)
    (d : γ) (da : α) (db : β) (hia : i < as.length) (hib : i < bs.length) :
    (List.zipWith f as bs).getD i d = f (as.getD i da) (bs.getD i db) := by
  rw [List.getD_eq_getElem _ _ (by rw [List.length_zipWith]; omega),
    List.getElem_zipWith, List.getD_eq_getElem _ _ hia, List.getD_eq_getElem _ _ hib]

/-- Claim C9 (amended): how the two deliberate missing-value replacements
behave. Forward filling replaces a missing policy-rate entry by the most
recent preceding present value, and the return-compounding step replaces a
missing benchmark return by a zero strategy return. -/
theorem claim_C9 (xs : List OQ) (i : ℕ) (hi : i < xs.length) (rows : List InRow) (j : ℕ)
    (hj : j < rows.length) (hmiss : (rows.getD j default).spy = none) :
    (ffill xs).getD i none = ((xs.take (i + 1)).filterMap id).getLast? ∧
    (backtest_strategy rows).stratRet.getD j 1 = 0 := by
  constructor
  · have h := ffillAux_getD xs none i hi
    rw [Option.or_none] at h
    exact h
  · have hpos : j < ((regimeSeries (rows.map (fun r => r.spread))).map positionSize).length := by
      rw [List.length_map, length_regimeSeries, List.length_map]; exact hj
    have hspy : j < (rows.map (fun r => r.spy)).length := by
      rw [List.length_map]; exact hj
    show (List.zipWith _ ((regimeSeries (rows.map (fun r => r.spread))).map positionSize)
      (rows.map (fun r => r.spy))).getD j 1 = 0
    rw [getD_zipWith_lt _ _ _ j 1 (1 : ℚ) none hpos hspy]
    rw [getD_map_lt (fun r => r.spy) rows j none default hj, hmiss]

/-- Part of the original claim C9 fails: a missing policy-rate value does not
propagate as missing — the column is forward-filled (index 1 below holds the
filled value 2), its one-step difference at that index is a present 0, and
the classification two steps later is computed from the filled value. -/
theorem claim_C9_counterexample :
    (ffill [some 2, none, some 3]).getD 1 none = some 2 ∧
    (diffList (ffill [some 2, none, some 3])).getD 1 none = some 0 ∧
    (fedClassSeries [some 2, none, some 3]).getD 2 .noChange = .increase := by
  refine ⟨rfl, ?_, ?_⟩
  · show (some (2 - 2 : ℚ) : OQ) = some 0
    norm_num
  · show (if (1/20 : ℚ) < 3 - 2 then RateCls.increase
      else if (3 - 2 : ℚ) < -(1/20) then RateCls.decrease else RateCls.noChange) = RateCls.increase
    rw [if_pos (by norm_num : (1/20 : ℚ) < 3 - 2)]

/-- Witness for claim C9 at a concrete input. -/
theorem claim_C9_witness :
    (ffill [some 2, none]).getD 1 none = (([some 2, none].take 2).filterMap id).getLast? ∧
    (backtest_strategy [⟨0, none, none, none⟩]).stratRet.getD 0 1 = 0 :=
  claim_C9 [some 2, none] 1 (by decide) [⟨0, none, none, none⟩] 0 (by decide) rfl

/-- Claim C6 fails on the code: with a present but entirely missing
`FEDFUNDS` column, the early branch of `identify_fed_rate_changes` does set
every row's classification to `none`, but returns only the DataFrame instead
of the `(df, rate_periods)` tuple; the caller's tuple unpacking in
`run_backtest` then raises `ValueError` instead of completing. -/
theorem claim_C6_bug :
    identify_fed_rate_changes ⟨true, [⟨0, none, some 1, none⟩, ⟨30, none, some 2, none⟩]⟩ =
      .single [RateCls.noChange, RateCls.noChange] ∧
    runBacktestFedStep ⟨true, [⟨0, none, some 1, none⟩, ⟨30, none, some 2, none⟩]⟩ =
      .error .valueErrorUnpack :=
  ⟨rfl, rfl⟩

/-- Claim C2 (amended): `calculate_period_metrics` returns the fully
zero-filled dictionary whenever the subset has no non-missing strategy
return (its actual trigger), and it never fails. -/
theorem claim_C2_amended (rows : List PRow) (h : rows.filterMap (fun r => r.stratRet) = []) :
    calculate_period_metrics rows = zeroPeriodMetrics := by
  simp only [calculate_period_metrics, h]
  rfl

/-- Witness for claim C2 at a concrete one-row subset whose strategy return
is missing. -/
theorem claim_C2_witness :
    ([⟨0, some 5, none, none, none, none, none⟩] : List PRow).filterMap (fun r => r.stratRet)
        = [] ∧
    calculate_period_metrics [⟨0, some 5, none, none, none, none, none⟩] = zeroPeriodMetrics :=
  ⟨rfl, claim_C2_amended _ rfl⟩

/-- Claim C2 as stated fails in two ways. On a subset with zero non-missing
return pairs, `calculate_performance_metrics` returns `None` — a missing
result, not a zero-filled object. And `calculate_period_metrics` keys its
empty-branch off the strategy column alone: a subset with zero non-missing
return pairs but a present strategy return is not zero-filled (its strategy
win rate below is 100, not 0). -/
theorem claim_C2_counterexample :
    calculate_performance_metrics [⟨0, none, some 5, none, none, none, none⟩] RISK_FREE_RATE
        = .ok none ∧
    (calculate_period_metrics [⟨0, none, some 5, none, none, none, none⟩]).strategy.win_rate
        = 100 := by
  constructor
  · rfl
  · have hf : ([⟨0, none, some 5, none, none, none, none⟩] : List PRow).filterMap
        (fun r => r.stratRet) = [5] := rfl
    norm_num [calculate_period_metrics, periodLeg, hf, List.countP_cons, List.countP_nil]

/-- Claim C4 is right and the code is wrong: on a subset with exactly one
row with both returns present, `calculate_performance_metrics` has
`n_years = 0` (zero calendar-day span) and evaluates `1 / n_years`, raising
`ZeroDivisionError` instead of defaulting the annualized return to 0 as the
spec requires (the per-period path has exactly that guard; this path has
none). -/
theorem claim_C4_bug :
    calculate_performance_metrics
        [⟨0, some 5, some 5, some (21/20), some (21/20), some 0, some 0⟩] RISK_FREE_RATE
      = .error .zeroDivision := by
  norm_num [calculate_performance_metrics]

theorem positionSize_bounds (g : Regime) : 0 < positionSize g ∧ positionSize g ≤ 1 := by
  cases g <;> norm_num [positionSize]

theorem stratRet_getD_of_spy_none (rows : List InRow) (j : ℕ) (hj : j < rows.length)
    (hmiss : (rows.getD j default).spy = none) :
    (backtest_strategy rows).stratRet.getD j 1 = 0 := by
  have hpos : j < ((regimeSeries (rows.map (fun r => r.spread))).map positionSize).length := by
    rw [List.length_map, length_regimeSeries, List.length_map]; exact hj
  have hspy : j < (rows.map (fun r => r.spy)).length := by
    rw [List.length_map]; exact hj
  show (List.zipWith _ ((regimeSeries (rows.map (fun r => r.spread))).map positionSize)
    (rows.map (fun r => r.spy))).getD j 1 = 0
  rw [getD_zipWith_lt _ _ _ j 1 (1 : ℚ) none hpos hspy]
  rw [getD_map_lt (fun r => r.spy) rows j none default hj, hmiss]


theorem stratRet_getD_eval (rows : List InRow) (i : ℕ) (hi : i < rows.length) :
    (backtest_strategy rows).stratRet.getD i 1 =
      (match (rows.getD i default).spy with
       | some v =>
         positionSize ((regimeSeries (rows.map (fun r => r.spread))).getD i .unknown) * v
       | Option.none => 0) := by
  have hpos : i < ((regimeSeries (rows.map (fun r => r.spread))).map positionSize).length := by
    rw [List.length_map, length_regimeSeries, List.length_map]; exact hi
  have hspy : i < (rows.map (fun r => r.spy)).length := by
    rw [List.length_map]; exact hi
  show (List.zipWith _ ((regimeSeries (rows.map (fun r => r.spread))).map positionSize)
    (rows.map (fun r => r.spy))).getD i 1 = _
  rw [getD_zipWith_lt _ _ _ i 1 (1 : ℚ) none hpos hspy]
  rw [getD_map_lt (fun r => r.spy) rows i none default hi]
  rw [getD_map_lt positionSize _ i 1 .unknown
    (by rw [length_regimeSeries, List.length_map]; exact hi)]

theorem stratRet_mem_gt (rows : List InRow)
    (hr : ∀ x ∈ rows, ∀ r : ℚ, x.spy = some r → -100 < r) :
    ∀ r ∈ (backtest_strategy rows).stratRet, -100 < r := by
  intro r hrm
  rw [List.mem_iff_getElem] at hrm
  obtain ⟨i, hlen, hval⟩ := hrm
  have hi : i < rows.length := by rw [length_stratRet] at hlen; exact hlen
  have hgetD : (backtest_strategy rows).stratRet.getD i 1 = r := by
    rw [List.getD_eq_getElem _ _ hlen]; exact hval
  rw [stratRet_getD_eval rows i hi] at hgetD
  cases hspy : (rows.getD i default).spy with
  | none =>
    rw [hspy] at hgetD
    simp only at hgetD
    rw [← hgetD]; norm_num
  | some w =>
    rw [hspy] at hgetD
    simp only at hgetD
    have hmem : rows.getD i default ∈ rows := by
      rw [List.getD_eq_getElem _ _ hi]; exact List.getElem_mem _
    have hw : -100 < w := hr _ hmem w hspy
    obtain ⟨g, hg⟩ : ∃ g, (regimeSeries (rows.map (fun r => r.spread))).getD i .unknown = g :=
      ⟨_, rfl⟩
    rw [hg] at hgetD
    obtain ⟨hp0, hp1⟩ := positionSize_bounds g
    have key : -100 < positionSize g * w := by
      rcases le_or_lt 0 w with h0 | h0
      · nlinarith [mul_nonneg hp0.le h0]
      · have hmon := mul_le_mul_of_nonpos_right hp1 h0.le
        rw [one_mul] at hmon
        linarith
    rw [← hgetD]
    exact key

theorem drawdown_cons_zero (x m : ℚ) (hm0 : 0 < m) (hxm : x ≤ m) (P M : List OQ) :
    ∃ d : ℚ, (List.zipWith ddF (some x :: P) (some m :: M)).getD 0 none = some d ∧ d ≤ 0 ∧
      ((some x : OQ) = some m → d = 0) := by
  refine ⟨(x / m - 1) * 100, ?_, ?_, ?_⟩
  · show ddF (some x) (some m) = _
    rw [show ddF (some x) (some m)
        = if m = 0 then none else some ((x / m - 1) * 100) from rfl]
    rw [if_neg hm0.ne']
  · have hd : x / m ≤ 1 := (div_le_one hm0).mpr hxm
    nlinarith
  · intro h
    rw [Option.some.inj h, div_self hm0.ne']
    ring

theorem drawdown_go (fs : List OQ) :
    ∀ (a : ℚ) (cur : OQ),
      (∀ v : ℚ, some v ∈ fs → 0 < v) → 0 < a →
      (∀ c : ℚ, cur = some c → a ≤ c ∧ 0 < c) →
      ∀ i : ℕ, i < fs.length →
        (fs.getD i none = none →
          (List.zipWith ddF (cumprodSkip a fs) (cummaxSkip cur (cumprodSkip a fs))).getD i none
            = none) ∧
        (∀ v : ℚ, fs.getD i none = some v →
          ∃ d : ℚ,
            (List.zipWith ddF (cumprodSkip a fs) (cummaxSkip cur (cumprodSkip a fs))).getD i none
              = some d ∧ d ≤ 0 ∧
            ((cumprodSkip a fs).getD i none = (cummaxSkip cur (cumprodSkip a fs)).getD i none →
              d = 0)) := by
  induction fs with
  | nil => intro a cur _ _ _ i hi; simp at hi
  | cons f rest ih =>
    intro a cur hmem hpos hcur i hi
    cases f with
    | none =>
      cases i with
      | zero =>
        refine ⟨fun _ => rfl, fun v hv => ?_⟩
        simp [List.getD_cons_zero] at hv
      | succ j =>
        have hj : j < rest.length := by simpa using hi
        have hrec := ih a cur (fun v hv => hmem v (by simp [hv])) hpos hcur j hj
        simpa [cumprodSkip, cummaxSkip, List.getD_cons_succ] using hrec
    | some v =>
      have hv : 0 < v := hmem v (by simp)
      have hx : 0 < a * v := mul_pos hpos hv
      cases cur with
      | none =>
        cases i with
        | zero =>
          refine ⟨fun h => by simp [List.getD_cons_zero] at h, fun w hw => ?_⟩
          simpa [cumprodSkip, cummaxSkip] using
            drawdown_cons_zero (a * v) (a * v) hx (le_refl _)
              (cumprodSkip (a * v) rest)
              (cummaxSkip (some (a * v)) (cumprodSkip (a * v) rest))
        | succ j =>
          have hj : j < rest.length := by simpa using hi
          have hrec := ih (a * v) (some (a * v)) (fun w hw => hmem w (by simp [hw])) hx
            (fun c hc => ⟨le_of_eq (Option.some.inj hc), (Option.some.inj hc) ▸ hx⟩) j hj
          simpa [cumprodSkip, cummaxSkip, List.getD_cons_succ] using hrec
      | some c =>
        have hm0 : 0 < max c (a * v) := lt_of_lt_of_le hx (le_max_right c (a * v))
        have hxm : a * v ≤ max c (a * v) := le_max_right c (a * v)
        cases i with
        | zero =>
          refine ⟨fun h => by simp [List.getD_cons_zero] at h, fun w hw => ?_⟩
          simpa [cumprodSkip, cummaxSkip] using
            drawdown_cons_zero (a * v) (max c (a * v)) hm0 hxm
              (cumprodSkip (a * v) rest)
              (cummaxSkip (some (max c (a * v))) (cumprodSkip (a * v) rest))
        | succ j =>
          have hj : j < rest.length := by simpa using hi
          have hrec := ih (a * v) (some (max c (a * v)))
            (fun w hw => hmem w (by simp [hw])) hx
            (fun d hd => ⟨(Option.some.inj hd) ▸ hxm, (Option.some.inj hd) ▸ hm0⟩) j hj
          simpa [cumprodSkip, cummaxSkip, List.getD_cons_succ] using hrec

theorem cumprodSkip_getD_none (fs : List OQ) : ∀ (a : ℚ) (i : ℕ),
    fs.getD i none = none → (cumprodSkip a fs).getD i none = none := by
  induction fs with
  | nil => intro a i _; rfl
  | cons f rest ih =>
    intro a i h
    cases i with
    | zero =>
      rw [List.getD_cons_zero] at h
      subst h
      rfl
    | succ j =>
      rw [List.getD_cons_succ] at h
      cases f with
      | none => simpa [cumprodSkip, List.getD_cons_succ] using ih a j h
      | some v => simpa [cumprodSkip, List.getD_cons_succ] using ih (a * v) j h

theorem cumprodSkip_getD_some (fs : List OQ) : ∀ (a : ℚ) (i : ℕ) (v : ℚ),
    fs.getD i none = some v → ∃ c : ℚ, (cumprodSkip a fs).getD i none = some c := by
  induction fs with
  | nil => intro a i v h; simp [List.getD] at h
  | cons f rest ih =>
    intro a i v h
    cases i with
    | zero =>
      rw [List.getD_cons_zero] at h
      subst h
      exact ⟨a * v, rfl⟩
    | succ j =>
      rw [List.getD_cons_succ] at h
      cases f with
      | none =>
        obtain ⟨c, hc⟩ := ih a j v h
        exact ⟨c, by simpa [cumprodSkip, List.getD_cons_succ] using hc⟩
      | some w =>
        obtain ⟨c, hc⟩ := ih (a * w) j v h
        exact ⟨c, by simpa [cumprodSkip, List.getD_cons_succ] using hc⟩

theorem spyFactors_pos (rows : List InRow)
    (hr : ∀ x ∈ rows, ∀ r : ℚ, x.spy = some r → -100 < r) :
    ∀ v : ℚ,
      some v ∈ (rows.map (fun r => r.spy)).map (Option.map (fun r => 1 + r / 100)) → 0 < v := by
  intro v hv
  rw [List.mem_map] at hv
  obtain ⟨o, ho, hov⟩ := hv
  rw [List.mem_map] at ho
  obtain ⟨x, hx, rfl⟩ := ho
  cases hsp : x.spy with
  | none => rw [hsp] at hov; cases hov
  | some r =>
    rw [hsp] at hov
    have hvv : 1 + r / 100 = v := Option.some.inj hov
    have hrr : -100 < r := hr x hx r hsp
    have key : (0 : ℚ) < 1 + r / 100 := by linarith
    exact hvv ▸ key

theorem stratFactors_pos (rows : List InRow)
    (hr : ∀ x ∈ rows, ∀ r : ℚ, x.spy = some r → -100 < r) :
    ∀ v : ℚ,
      some v ∈ (backtest_strategy rows).stratRet.map (fun r => (some (1 + r / 100) : OQ)) →
        0 < v := by
  intro v hv
  rw [List.mem_map] at hv
  obtain ⟨r, hrm, hrv⟩ := hv
  have hgt := stratRet_mem_gt rows hr r hrm
  have hvv : 1 + r / 100 = v := Option.some.inj hrv
  have key : (0 : ℚ) < 1 + r / 100 := by linarith
  exact hvv ▸ key

theorem dd_from_go (fs : List OQ) (hf : ∀ v : ℚ, some v ∈ fs → 0 < v) (i : ℕ) (d : ℚ)
    (hdd : (drawdownSeries (cumprodSkip 1 fs)).getD i none = some d) :
    d ≤ 0 ∧ ((cumprodSkip 1 fs).getD i none
        = (cummaxSkip none (cumprodSkip 1 fs)).getD i none → d = 0) := by
  by_cases hi : i < fs.length
  · have hgo := drawdown_go fs 1 none hf one_pos (fun c hc => by cases hc) i hi
    cases hfd : fs.getD i none with
    | none =>
      rw [show drawdownSeries (cumprodSkip 1 fs)
          = List.zipWith ddF (cumprodSkip 1 fs) (cummaxSkip none (cumprodSkip 1 fs)) from rfl,
        hgo.1 hfd] at hdd
      cases hdd
    | some v =>
      obtain ⟨d2, hd2, hle, heq⟩ := hgo.2 v hfd
      rw [show drawdownSeries (cumprodSkip 1 fs)
          = List.zipWith ddF (cumprodSkip 1 fs) (cummaxSkip none (cumprodSkip 1 fs)) from rfl,
        hd2] at hdd
      obtain rfl : d2 = d := Option.some.inj hdd
      exact ⟨hle, heq⟩
  · have hlen : (drawdownSeries (cumprodSkip 1 fs)).length ≤ i := by
      rw [length_drawdownSeries, length_cumprodSkip]
      omega
    rw [List.getD_eq_getElem?_getD, List.getElem?_eq_none hlen] at hdd
    cases hdd

/-- Claim C7 (amended): provided every present benchmark return exceeds
-100 percent (equivalently, every compounding factor is positive), each
defined drawdown value is non-positive and is exactly 0 wherever the
cumulative curve equals its own running maximum — for the benchmark and the
strategy curves alike. With a return of -100 or below the invariant fails
(see the counterexample). -/
theorem claim_C7_amended (rows : List InRow)
    (hr : ∀ x ∈ rows, ∀ r : ℚ, x.spy = some r → -100 < r) (i : ℕ) (d : ℚ) :
    ((backtest_strategy rows).spyDD.getD i none = some d →
      d ≤ 0 ∧
      ((backtest_strategy rows).spyCum.getD i none
          = (cummaxSkip none (backtest_strategy rows).spyCum).getD i none → d = 0)) ∧
    ((backtest_strategy rows).stratDD.getD i none = some d →
      d ≤ 0 ∧
      ((backtest_strategy rows).stratCum.getD i none
          = (cummaxSkip none (backtest_strategy rows).stratCum).getD i none → d = 0)) := by
  constructor
  · intro hdd
    exact dd_from_go ((rows.map (fun r => r.spy)).map (Option.map (fun r => 1 + r / 100)))
      (spyFactors_pos rows hr) i d hdd
  · intro hdd
    exact dd_from_go ((backtest_strategy rows).stratRet.map (fun r => (some (1 + r / 100) : OQ)))
      (stratFactors_pos rows hr) i d hdd

/-- Claim C7 as stated fails: with a benchmark return of -200 percent the
benchmark equity curve goes negative, the running maximum is negative, and
the drawdown at the second step is +10 — strictly positive. -/
theorem claim_C7_counterexample :
    (backtest_strategy [⟨0, none, some (-200), none⟩, ⟨30, none, some 10, none⟩]).spyDD.getD 1
      none = some 10 ∧ ¬ ((10 : ℚ) ≤ 0) := by
  constructor
  · norm_num [backtest_strategy, drawdownSeries, cumprodSkip, cummaxSkip, ddF, max_def]
  · norm_num

/-- Witness for claim C7 at a concrete two-row input. -/
theorem claim_C7_witness :
    (∀ x ∈ ([⟨0, none, some 10, none⟩, ⟨30, none, some (-5), none⟩] : List InRow),
      ∀ r : ℚ, x.spy = some r → -100 < r) ∧
    ((backtest_strategy [⟨0, none, some 10, none⟩, ⟨30, none, some (-5), none⟩]).spyDD.getD 0
        none = some 0 →
      (0 : ℚ) ≤ 0 ∧
      ((backtest_strategy [⟨0, none, some 10, none⟩, ⟨30, none, some (-5), none⟩]).spyCum.getD 0
          none
        = (cummaxSkip none
            (backtest_strategy
              [⟨0, none, some 10, none⟩, ⟨30, none, some (-5), none⟩]).spyCum).getD 0 none →
        (0 : ℚ) = 0)) := by
  have hr : ∀ x ∈ ([⟨0, none, some 10, none⟩, ⟨30, none, some (-5), none⟩] : List InRow),
      ∀ r : ℚ, x.spy = some r → -100 < r := by
    intro x hx r hxr
    fin_cases hx <;> (injection hxr with h; rw [← h]; norm_num)
  exact ⟨hr, (claim_C7_amended [⟨0, none, some 10, none⟩, ⟨30, none, some (-5), none⟩]
    hr 0 0).1⟩

/-- Claim C10 (amended): provided every present benchmark return exceeds
-100 percent, the strategy-return column is 0 wherever the benchmark return
is missing, and the strategy cumulative and drawdown columns are defined at
every timestamp, while the benchmark cumulative column stays missing at the
missing timestamps. When a strategy compounding factor reaches 0 (benchmark
return of -200 at half position, say) the strategy drawdown is NaN instead
(see the counterexample). -/
theorem claim_C10_amended (rows : List InRow)
    (hr : ∀ x ∈ rows, ∀ r : ℚ, x.spy = some r → -100 < r) (i : ℕ) (hi : i < rows.length) :
    ((rows.getD i default).spy = none → (backtest_strategy rows).stratRet.getD i 1 = 0) ∧
    (∃ c : ℚ, (backtest_strategy rows).stratCum.getD i none = some c) ∧
    (∃ d : ℚ, (backtest_strategy rows).stratDD.getD i none = some d) ∧
    ((rows.getD i default).spy = none → (backtest_strategy rows).spyCum.getD i none = none) := by
  have hlenS : i < (backtest_strategy rows).stratRet.length := by
    rw [length_stratRet]; exact hi
  have hfT : ((backtest_strategy rows).stratRet.map (fun r => (some (1 + r / 100) : OQ))).getD i
      none = some (1 + (backtest_strategy rows).stratRet.getD i 0 / 100) :=
    getD_map_lt (fun r => (some (1 + r / 100) : OQ)) _ i none 0 hlenS
  refine ⟨fun h => stratRet_getD_of_spy_none rows i hi h, ?_, ?_, ?_⟩
  · exact cumprodSkip_getD_some _ 1 i _ hfT
  · have hgo := drawdown_go ((backtest_strategy rows).stratRet.map
        (fun r => (some (1 + r / 100) : OQ))) 1 none (stratFactors_pos rows hr) one_pos
      (fun c hc => by cases hc) i (by rw [List.length_map]; exact hlenS)
    obtain ⟨d, hd, _, _⟩ := hgo.2 _ hfT
    exact ⟨d, hd⟩
  · intro h
    apply cumprodSkip_getD_none
    have hsp : (rows.map (fun r => r.spy)).getD i none = none := by
      rw [getD_map_lt (fun r => r.spy) rows i none default hi, h]
    rw [getD_map_lt (Option.map (fun r => 1 + r / 100)) _ i none none
      (by rw [List.length_map]; exact hi), hsp]
    rfl

/-- Claim C10 as stated fails: with a single row whose benchmark return is
-200 percent, the strategy return is -100 (half position), the strategy
compounding factor is 0, and the strategy drawdown at that timestamp is NaN
(0.0/0.0), not a defined value. -/
theorem claim_C10_counterexample :
    (backtest_strategy [⟨0, none, some (-200), none⟩]).stratDD.getD 0 none = none := by
  norm_num [backtest_strategy, drawdownSeries, cumprodSkip, cummaxSkip, ddF, max_def,
    regimeSeries, rollingQuantile, spreadP25, spreadP50, spreadP75, spreadP90, windowVals,
    classifyRegime, oleB, oltB, positionSize, List.range_succ]

/-- Witness for claim C10 at a concrete two-row input with a missing
benchmark return. -/
theorem claim_C10_witness :
    ((([⟨0, none, none, none⟩, ⟨30, none, some 10, none⟩] : List InRow).getD 0 default).spy
        = none →
      (backtest_strategy [⟨0, none, none, none⟩, ⟨30, none, some 10, none⟩]).stratRet.getD 0 1
        = 0) ∧
    (∃ c : ℚ, (backtest_strategy
        [⟨0, none, none, none⟩, ⟨30, none, some 10, none⟩]).stratCum.getD 0 none = some c) ∧
    (∃ d : ℚ, (backtest_strategy
        [⟨0, none, none, none⟩, ⟨30, none, some 10, none⟩]).stratDD.getD 0 none = some d) ∧
    ((([⟨0, none, none, none⟩, ⟨30, none, some 10, none⟩] : List InRow).getD 0 default).spy
        = none →
      (backtest_strategy [⟨0, none, none, none⟩, ⟨30, none, some 10, none⟩]).spyCum.getD 0 none
        = none) := by
  have hr : ∀ x ∈ ([⟨0, none, none, none⟩, ⟨30, none, some 10, none⟩] : List InRow),
      ∀ r : ℚ, x.spy = some r → -100 < r := by
    intro x hx r hxr
    fin_cases hx
    · cases hxr
    · injection hxr with h; rw [← h]; norm_num
  exact claim_C10_amended [⟨0, none, none, none⟩, ⟨30, none, some 10, none⟩] hr 0 (by decide)

/-- Claim C8 as stated fails: take SPY returns [10, -10] (spread missing, so
position 1/2 and strategy returns [5, -5]) and the subset consisting of the
second row only. The reported strategy max_drawdown is -5 — the whole-series
drawdown column restricted to that row — while the minimum of the drawdown
series recomputed from the subset's own equity curve is 0. -/
theorem claim_C8_counterexample :
    (calculate_period_metrics
        ((toPRows [⟨0, none, some 10, none⟩, ⟨30, none, some (-10), none⟩]).drop
          1)).strategy.max_drawdown = some (-5) ∧
    specOwnMaxDrawdown
        (((toPRows [⟨0, none, some 10, none⟩, ⟨30, none, some (-10), none⟩]).drop 1).filterMap
          (fun r => r.stratRet)) = some 0 ∧
    (calculate_period_metrics
        ((toPRows [⟨0, none, some 10, none⟩, ⟨30, none, some (-10), none⟩]).drop
          1)).strategy.max_drawdown ≠
      specOwnMaxDrawdown
        (((toPRows [⟨0, none, some 10, none⟩, ⟨30, none, some (-10), none⟩]).drop 1).filterMap
          (fun r => r.stratRet)) := by
  have hrows : (toPRows [⟨0, none, some 10, none⟩, ⟨30, none, some (-10), none⟩]).drop 1
      = [⟨30, some (-10), some (-5), some (99/100), some (399/400), some (-10), some (-5)⟩] := by
    norm_num [toPRows, backtest_strategy, drawdownSeries, cumprodSkip, cummaxSkip, ddF, max_def,
      regimeSeries, rollingQuantile, spreadP25, spreadP50, spreadP75, spreadP90, windowVals,
      classifyRegime, oleB, oltB, positionSize, List.range_succ]
  rw [hrows]
  have h1 : (calculate_period_metrics
      [⟨30, some (-10), some (-5), some (99/100), some (399/400), some (-10),
        some (-5)⟩]).strategy.max_drawdown = some (-5) := rfl
  have h2 : specOwnMaxDrawdown
      (([⟨30, some (-10), some (-5), some (99/100), some (399/400), some (-10),
        some (-5)⟩] : List PRow).filterMap (fun r => r.stratRet)) = some 0 := by
    norm_num [specOwnMaxDrawdown, drawdownSeries, cumprodSkip, cummaxSkip, ddF, minOpt]
  refine ⟨h1, h2, ?_⟩
  rw [h1, h2]
  norm_num

/-- Claim C8 (amended): on any subset with at least one non-missing strategy
return, the reported max_drawdown of each leg is the minimum (NaN-skipping)
of the whole-series drawdown column restricted to the subset's rows, not a
recomputation from the subset's own equity curve. -/
theorem claim_C8_amended (rows : List PRow) (h : rows.filterMap (fun r => r.stratRet) ≠ []) :
    (calculate_period_metrics rows).strategy.max_drawdown
        = minOpt (rows.map (fun r => r.stratDD)) ∧
    (calculate_period_metrics rows).spy.max_drawdown
        = minOpt (rows.map (fun r => r.spyDD)) := by
  have hlen : ¬ ((rows.filterMap (fun r => r.stratRet)).length = 0) := by
    rw [List.length_eq_zero]; exact h
  simp only [calculate_period_metrics]
  rw [if_neg hlen]
  exact ⟨rfl, rfl⟩

/-- Witness for claim C8 at a concrete one-row subset. -/
theorem claim_C8_witness :
    ([⟨0, some 5, some 5, none, none, some (-1), some (-2)⟩] : List PRow).filterMap
        (fun r => r.stratRet) ≠ [] ∧
    (calculate_period_metrics
        [⟨0, some 5, some 5, none, none, some (-1), some (-2)⟩]).strategy.max_drawdown
      = minOpt (([⟨0, some 5, some 5, none, none, some (-1), some (-2)⟩] : List PRow).map
          (fun r => r.stratDD)) ∧
    (calculate_period_metrics
        [⟨0, some 5, some 5, none, none, some (-1), some (-2)⟩]).spy.max_drawdown
      = minOpt (([⟨0, some 5, some 5, none, none, some (-1), some (-2)⟩] : List PRow).map
          (fun r => r.spyDD)) := by
  have h : ([⟨0, some 5, some 5, none, none, some (-1), some (-2)⟩] : List PRow).filterMap
      (fun r => r.stratRet) ≠ [] := by
    intro hc
    cases hc
  obtain ⟨h1, h2⟩ := claim_C8_amended [⟨0, some 5, some 5, none, none, some (-1), some (-2)⟩] h
  exact ⟨h, h1, h2⟩

theorem length_cumprod (l : List ℚ) : ∀ a, (cumprod a l).length = l.length := by
  induction l with
  | nil => intro a; rfl
  | cons x rest ih => intro a; simp [cumprod, ih]

theorem cumprodSkip_map_some (l : List ℚ) : ∀ a,
    cumprodSkip a (l.map some) = (cumprod a l).map some := by
  induction l with
  | nil => intro a; rfl
  | cons x rest ih => intro a; simp [cumprod, cumprodSkip, ih]

theorem range_map_getD {α : Type} (l : List α) (d : α) :
    (List.range l.length).map (fun i => l.getD i d) = l := by
  apply List.ext_getElem
  · simp
  · intro i h1 h2
    simp only [List.getElem_map, List.getElem_range]
    rw [List.getD_eq_getElem l d h2]

theorem range_map_comp_getD {α β : Type} (l : List α) (d : α) (f : α → β) :
    (List.range l.length).map (fun i => f (l.getD i d)) = l.map f := by
  apply List.ext_getElem
  · simp
  · intro i h1 h2
    simp only [List.getElem_map, List.getElem_range]
    rw [List.getD_eq_getElem l d (by simpa using h2)]

theorem filterMap_isSome_length {α β : Type} (f : α → Option β) (l : List α)
    (h : ∀ x ∈ l, (f x).isSome = true) : (l.filterMap f).length = l.length := by
  induction l with
  | nil => rfl
  | cons x rest ih =>
    cases hx : f x with
    | none =>
      have := h x (by simp)
      rw [hx] at this
      cases this
    | some b =>
      rw [List.filterMap_cons_some hx]
      simp only [List.length_cons]
      rw [ih (fun y hy => h y (by simp [hy]))]

theorem filterMap_of_map_some {α β : Type} (f : α → Option β) :
    ∀ (l : List α) (m : List β), l.map f = m.map some → l.filterMap f = m := by
  intro l
  induction l with
  | nil =>
    intro m h
    cases m with
    | nil => rfl
    | cons b t => cases h
  | cons x rest ih =>
    intro m h
    cases m with
    | nil => cases h
    | cons b t =>
      rw [List.map_cons, List.map_cons] at h
      have hx : f x = some b := (List.cons.injEq _ _ _ _ ▸ h).1
      have ht : rest.map f = t.map some := (List.cons.injEq _ _ _ _ ▸ h).2
      rw [List.filterMap_cons_some hx, ih t ht]

theorem headD_map_some (l : List ℚ) (h : l ≠ []) :
    (l.map some).headD none = some (l.headD 0) := by
  cases l with
  | nil => exact absurd rfl h
  | cons x rest => rfl

theorem getLastD_map_some (l : List ℚ) : ∀ (d : OQ) (d2 : ℚ), l ≠ [] →
    (l.map some).getLastD d = some (l.getLastD d2) := by
  induction l with
  | nil => intro d d2 h; exact absurd rfl h
  | cons x rest ih =>
    intro d d2 _
    cases rest with
    | nil => rfl
    | cons y t =>
      rw [List.map_cons, List.getLastD_cons, List.getLastD_cons]
      exact ih (some x) x (by simp)

theorem toPRows_length (rows : List InRow) : (toPRows rows).length = rows.length := by
  simp [toPRows]

theorem toPRows_map_spyRet (rows : List InRow) :
    (toPRows rows).map (fun r => r.spyRet) = rows.map (fun r => r.spy) := by
  simp only [toPRows]
  rw [List.map_map]
  exact range_map_comp_getD rows default (fun r => r.spy)

theorem toPRows_map_stratRet (rows : List InRow) :
    (toPRows rows).map (fun r => r.stratRet) = (backtest_strategy rows).stratRet.map some := by
  simp only [toPRows]
  rw [List.map_map]
  have h1 : (List.range rows.length).map
      ((fun r => PRow.stratRet r) ∘ (fun i =>
        ({ date := (rows.getD i default).date
           spyRet := (rows.getD i default).spy
           stratRet := some ((backtest_strategy rows).stratRet.getD i 0)
           spyCum := (backtest_strategy rows).spyCum.getD i none
           stratCum := (backtest_strategy rows).stratCum.getD i none
           spyDD := (backtest_strategy rows).spyDD.getD i none
           stratDD := (backtest_strategy rows).stratDD.getD i none } : PRow)))
      = (List.range rows.length).map
        (fun i => some ((backtest_strategy rows).stratRet.getD i 0)) := rfl
  rw [h1]
  rw [show (List.range rows.length)
      = (List.range (backtest_strategy rows).stratRet.length) from by rw [length_stratRet]]
  rw [show (fun i => some ((backtest_strategy rows).stratRet.getD i 0))
      = (some ∘ fun i => (backtest_strategy rows).stratRet.getD i 0) from rfl]
  rw [← List.map_map]
  rw [range_map_getD (backtest_strategy rows).stratRet 0]

theorem toPRows_map_spyCum (rows : List InRow) :
    (toPRows rows).map (fun r => r.spyCum) = (backtest_strategy rows).spyCum := by
  simp only [toPRows]
  rw [List.map_map]
  rw [show (List.range rows.length)
      = (List.range (backtest_strategy rows).spyCum.length) from by rw [length_spyCum]]
  exact range_map_getD (backtest_strategy rows).spyCum none

theorem toPRows_map_stratCum (rows : List InRow) :
    (toPRows rows).map (fun r => r.stratCum) = (backtest_strategy rows).stratCum := by
  simp only [toPRows]
  rw [List.map_map]
  rw [show (List.range rows.length)
      = (List.range (backtest_strategy rows).stratCum.length) from by rw [length_stratCum]]
  exact range_map_getD (backtest_strategy rows).stratCum none

theorem map_eq_filterMap_map_some {α β : Type} (f : α → Option β) (l : List α)
    (h : ∀ x ∈ l, (f x).isSome = true) : l.map f = (l.filterMap f).map some := by
  induction l with
  | nil => rfl
  | cons x rest ih =>
    cases hx : f x with
    | none =>
      have := h x (by simp)
      rw [hx] at this
      cases this
    | some b =>
      rw [List.map_cons, hx, List.filterMap_cons_some hx, List.map_cons]
      rw [ih (fun y hy => h y (by simp [hy]))]

theorem getD_irrel {α : Type} (l : List α) (i : ℕ) (d1 d2 : α) (hi : i < l.length) :
    l.getD i d1 = l.getD i d2 := by
  rw [List.getD_eq_getElem _ _ hi, List.getD_eq_getElem _ _ hi]

theorem getLastD_eq_getD {α : Type} : ∀ (l : List α) (d : α),
    l.getLastD d = l.getD (l.length - 1) d := by
  intro l
  induction l with
  | nil => intro d; rfl
  | cons x rest ih =>
    intro d
    cases rest with
    | nil => rfl
    | cons y t =>
      rw [List.getLastD_cons, ih x]
      have h1 : (y :: t).length - 1 < (y :: t).length := by simp
      rw [getD_irrel (y :: t) ((y :: t).length - 1) x d h1]
      rfl

theorem headD_eq_getD {α : Type} (l : List α) (d : α) : l.headD d = l.getD 0 d := by
  cases l <;> rfl

theorem whole_period_fields (R : List ℚ) (C D : List OQ) (Y : ℚ) (N : ℕ)
    (hC : C = (cumprod 1 (R.map (fun r => 1 + r / 100))).map some)
    (hR : R.length = N) (hN : 2 ≤ N) :
    (wholeLeg R C D Y N RISK_FREE_RATE).total_return
        = some ((periodLeg R D N).total_return) ∧
    (wholeLeg R C D Y N RISK_FREE_RATE).volatility
        = some ((periodLeg R D N).volatility) ∧
    (wholeLeg R C D Y N RISK_FREE_RATE).max_drawdown = (periodLeg R D N).max_drawdown ∧
    (wholeLeg R C D Y N RISK_FREE_RATE).win_rate = (periodLeg R D N).win_rate := by
  have hcumLen : (cumprod 1 (R.map (fun r => 1 + r / 100))).length = N := by
    rw [length_cumprod, List.length_map, hR]
  have hcumNe : cumprod 1 (R.map (fun r => 1 + r / 100)) ≠ [] := by
    intro h
    rw [h] at hcumLen
    simp at hcumLen
    omega
  refine ⟨?_, ?_, ?_, ?_⟩
  · show omap2 (fun a b => (a / b - 1) * 100) (C.getLastD none) (C.headD none) = _
    rw [hC, getLastD_map_some _ none 0 hcumNe, headD_map_some _ hcumNe]
    show some _ = some _
    have hpos : 0 < (cumprod 1 (R.map (fun r => 1 + r / 100))).length := by omega
    show some _ = some (if 0 < (cumprod 1 (R.map (fun r => 1 + r / 100))).length then _ else 0)
    rw [if_pos hpos]
  · show annStd R = some _
    rw [show annStd R = if R.length ≤ 1 then none
      else some (Real.sqrt (sampleVar R) * Real.sqrt 12) from rfl]
    rw [if_neg (by omega : ¬ (R.length ≤ 1))]
    show some _ = some (if 1 < R.length then Real.sqrt (sampleVar R) * Real.sqrt 12 else 0)
    rw [if_pos (by omega : 1 < R.length)]
  · rfl
  · show (((R.countP (fun x => 0 < x) : ℕ) : ℚ)) / (N : ℚ) * 100 = _
    show _ = (if 0 < R.length
      then (((R.countP (fun x => 0 < x) : ℕ) : ℚ)) / (R.length : ℚ) * 100 else 0)
    rw [if_pos (by omega : 0 < R.length), hR]

/-- Claim C3 (amended): on an input whose benchmark returns are all present,
with at least two rows and distinct first/last dates, the per-segment path
applied to the full series agrees with the whole-series path on `n_months`,
`total_return`, `volatility`, `max_drawdown` and `win_rate` for both legs.
The two paths are not field-for-field equal in general: `annualized_return`
(and with it `sharpe_ratio`) uses `n_months/12` years on the per-segment
path but the calendar-day span over 365.25 on the whole-series path, the
per-segment path computes no sortino, and with missing benchmark returns
even `n_months` differs (see the counterexample). -/
theorem claim_C3_amended (rows : List InRow)
    (hall : ∀ x ∈ rows, x.spy.isSome = true)
    (hlen2 : 2 ≤ rows.length)
    (hdate : (rows.getD 0 default).date ≠ (rows.getD (rows.length - 1) default).date) :
    ∃ M : FullMetrics,
      calculate_performance_metrics (toPRows rows) RISK_FREE_RATE = .ok (some M) ∧
      M.spy.n_months = (calculate_period_metrics (toPRows rows)).n_months ∧
      M.strategy.n_months = (calculate_period_metrics (toPRows rows)).n_months ∧
      M.spy.total_return = some ((calculate_period_metrics (toPRows rows)).spy.total_return) ∧
      M.strategy.total_return
        = some ((calculate_period_metrics (toPRows rows)).strategy.total_return) ∧
      M.spy.volatility = some ((calculate_period_metrics (toPRows rows)).spy.volatility) ∧
      M.strategy.volatility
        = some ((calculate_period_metrics (toPRows rows)).strategy.volatility) ∧
      M.spy.max_drawdown = (calculate_period_metrics (toPRows rows)).spy.max_drawdown ∧
      M.strategy.max_drawdown = (calculate_period_metrics (toPRows rows)).strategy.max_drawdown ∧
      M.spy.win_rate = (calculate_period_metrics (toPRows rows)).spy.win_rate ∧
      M.strategy.win_rate = (calculate_period_metrics (toPRows rows)).strategy.win_rate := by
  have hallP : ∀ x ∈ toPRows rows, (x.spyRet.isSome && x.stratRet.isSome) = true := by
    intro x hx
    simp only [toPRows, List.mem_map, List.mem_range] at hx
    obtain ⟨i, hi, rfl⟩ := hx
    have hmem : rows.getD i default ∈ rows := by
      rw [List.getD_eq_getElem _ _ hi]
      exact List.getElem_mem _
    simp only [Bool.and_eq_true]
    exact ⟨hall _ hmem, rfl⟩
  have hclean : (toPRows rows).filter (fun r => r.spyRet.isSome && r.stratRet.isSome)
      = toPRows rows := List.filter_eq_self.mpr hallP
  have hplen : (toPRows rows).length = rows.length := toPRows_length rows
  have hn0 : ¬ ((toPRows rows).length = 0) := by omega
  have hstratFM : (toPRows rows).filterMap (fun r => r.stratRet)
      = (backtest_strategy rows).stratRet :=
    filterMap_of_map_some _ _ _ (toPRows_map_stratRet rows)
  have hallP2 : ∀ x ∈ toPRows rows, x.spyRet.isSome = true ∧ x.stratRet.isSome = true := by
    intro x hx
    have h := hallP x hx
    simp only [Bool.and_eq_true] at h
    exact h
  have hstratLen : ((toPRows rows).filterMap (fun r => r.stratRet)).length
      = (toPRows rows).length :=
    filterMap_isSome_length _ _ (fun x hx => (hallP2 x hx).2)
  have hspyLen : ((toPRows rows).filterMap (fun r => r.spyRet)).length
      = (toPRows rows).length :=
    filterMap_isSome_length _ _ (fun x hx => (hallP2 x hx).1)
  have hhead : ((toPRows rows).headD default).date = (rows.getD 0 default).date := by
    rw [headD_eq_getD]
    simp only [toPRows]
    rw [getD_range_map _ rows.length 0 default (by omega)]
  have hlast : ((toPRows rows).getLastD default).date
      = (rows.getD (rows.length - 1) default).date := by
    rw [getLastD_eq_getD, hplen]
    simp only [toPRows]
    rw [getD_range_map _ rows.length (rows.length - 1) default (by omega)]
  have hny : (((((toPRows rows).getLastD default).date
      - ((toPRows rows).headD default).date : ℤ) : ℚ) / (1461/4)) ≠ 0 := by
    rw [div_ne_zero_iff]
    refine ⟨?_, by norm_num⟩
    rw [Int.cast_ne_zero, sub_ne_zero, hlast, hhead]
    exact fun hc => hdate hc.symm
  have hpr0 : ¬ (((toPRows rows).filterMap (fun r => r.stratRet)).length = 0) := by
    rw [hstratLen]; omega
  have hperiod : calculate_period_metrics (toPRows rows)
      = { n_months := (toPRows rows).length
          strategy := periodLeg ((toPRows rows).filterMap (fun r => r.stratRet))
            ((toPRows rows).map (fun r => r.stratDD)) (toPRows rows).length
          spy := periodLeg ((toPRows rows).filterMap (fun r => r.spyRet))
            ((toPRows rows).map (fun r => r.spyDD)) (toPRows rows).length } := by
    simp only [calculate_period_metrics]
    rw [if_neg hpr0]
  have hspyColEq : rows.map (fun r => r.spy)
      = ((toPRows rows).filterMap (fun r => r.spyRet)).map some := by
    rw [← toPRows_map_spyRet]
    exact map_eq_filterMap_map_some _ _ (fun x hx => (hallP2 x hx).1)
  have hSpyCumCol : (toPRows rows).map (fun r => r.spyCum)
      = (cumprod 1 (((toPRows rows).filterMap (fun r => r.spyRet)).map
          (fun r => 1 + r / 100))).map some := by
    rw [toPRows_map_spyCum]
    show cumprodSkip 1 ((rows.map (fun r => r.spy)).map (Option.map (fun r => 1 + r / 100))) = _
    rw [hspyColEq, List.map_map]
    rw [show (Option.map (fun r : ℚ => (1 : ℚ) + r / 100) ∘ some)
        = (some ∘ (fun r : ℚ => 1 + r / 100)) from rfl]
    rw [← List.map_map]
    exact cumprodSkip_map_some _ 1
  have hStratCumCol : (toPRows rows).map (fun r => r.stratCum)
      = (cumprod 1 (((toPRows rows).filterMap (fun r => r.stratRet)).map
          (fun r => 1 + r / 100))).map some := by
    rw [toPRows_map_stratCum, hstratFM]
    show cumprodSkip 1 ((backtest_strategy rows).stratRet.map
      (fun r => (some (1 + r / 100) : OQ))) = _
    rw [show ((fun r : ℚ => (some (1 + r / 100) : OQ)))
        = (some ∘ (fun r : ℚ => 1 + r / 100)) from rfl]
    rw [← List.map_map]
    exact cumprodSkip_map_some _ 1
  rw [hperiod]
  simp only [calculate_performance_metrics]
  rw [hclean, if_neg hn0, if_neg hny]
  refine ⟨_, rfl, rfl, rfl, ?_, ?_, ?_, ?_, ?_, ?_, ?_, ?_⟩
  · exact (whole_period_fields _ _ _ _ _ hSpyCumCol hspyLen (by omega)).1
  · exact (whole_period_fields _ _ _ _ _ hStratCumCol hstratLen (by omega)).1
  · exact (whole_period_fields _ _ _ _ _ hSpyCumCol hspyLen (by omega)).2.1
  · exact (whole_period_fields _ _ _ _ _ hStratCumCol hstratLen (by omega)).2.1
  · exact (whole_period_fields _ _ _ _ _ hSpyCumCol hspyLen (by omega)).2.2.1
  · exact (whole_period_fields _ _ _ _ _ hStratCumCol hstratLen (by omega)).2.2.1
  · exact (whole_period_fields _ _ _ _ _ hSpyCumCol hspyLen (by omega)).2.2.2
  · exact (whole_period_fields _ _ _ _ _ hStratCumCol hstratLen (by omega)).2.2.2

/-- Claim C3 as stated fails in two ways. With one missing benchmark return
(first input), the whole-series path reports `n_months = 2` while the
per-segment path on the full series reports `n_months = 3`. And even on a
fully clean series (second input, dates 0 and 100), the SPY annualized
returns differ because the whole-series path annualizes over
`100/365.25` years while the per-segment path annualizes over `2/12`. -/
theorem claim_C3_counterexample :
    exNMonthsSpy (calculate_performance_metrics
        (toPRows [⟨0, none, none, none⟩, ⟨30, none, some 10, none⟩, ⟨61, none, some 20, none⟩])
        RISK_FREE_RATE) = some 2 ∧
    (calculate_period_metrics
        (toPRows [⟨0, none, none, none⟩, ⟨30, none, some 10, none⟩,
          ⟨61, none, some 20, none⟩])).n_months = 3 ∧
    exAnnSpy (calculate_performance_metrics
        (toPRows [⟨0, none, some 10, none⟩, ⟨100, none, some 21, none⟩]) RISK_FREE_RATE)
      ≠ some (some ((calculate_period_metrics
          (toPRows [⟨0, none, some 10, none⟩,
            ⟨100, none, some 21, none⟩])).spy.annualized_return)) := by
  have htp1 : toPRows [⟨0, none, none, none⟩, ⟨30, none, some 10, none⟩,
        ⟨61, none, some 20, none⟩]
      = [⟨0, none, some 0, none, some 1, none, some 0⟩,
         ⟨30, some 10, some 5, some (11/10), some (21/20), some 0, some 0⟩,
         ⟨61, some 20, some 10, some (33/25), some (231/200), some 0, some 0⟩] := by
    norm_num [toPRows, backtest_strategy, drawdownSeries, cumprodSkip, cummaxSkip, ddF, max_def,
      regimeSeries, rollingQuantile, spreadP25, spreadP50, spreadP75, spreadP90, windowVals,
      classifyRegime, oleB, oltB, positionSize, List.range_succ]
  have htp2 : toPRows [⟨0, none, some 10, none⟩, ⟨100, none, some 21, none⟩]
      = [⟨0, some 10, some 5, some (11/10), some (21/20), some 0, some 0⟩,
         ⟨100, some 21, some (21/2), some (1331/1000), some (4641/4000), some 0, some 0⟩] := by
    norm_num [toPRows, backtest_strategy, drawdownSeries, cumprodSkip, cummaxSkip, ddF, max_def,
      regimeSeries, rollingQuantile, spreadP25, spreadP50, spreadP75, spreadP90, windowVals,
      classifyRegime, oleB, oltB, positionSize, List.range_succ]
  rw [htp1, htp2]
  refine ⟨?_, ?_, ?_⟩
  · norm_num [calculate_performance_metrics, exNMonthsSpy, wholeLeg]
  · rfl
  · have hW2 : exAnnSpy (calculate_performance_metrics
        [⟨0, some 10, some 5, some (11/10), some (21/20), some 0, some 0⟩,
         ⟨100, some 21, some (21/2), some (1331/1000), some (4641/4000), some 0, some 0⟩]
        RISK_FREE_RATE) = some (some (annualize (121/100) (400/1461))) := by
      norm_num [calculate_performance_metrics, exAnnSpy, wholeLeg, omap2]
    have hne2 : ¬ ((([⟨0, some 10, some 5, some (11/10), some (21/20), some 0, some 0⟩,
        ⟨100, some 21, some (21/2), some (1331/1000), some (4641/4000), some 0,
          some 0⟩] : List PRow).filterMap (fun r => r.stratRet)).length = 0) := by
      rw [show (([⟨0, some 10, some 5, some (11/10), some (21/20), some 0, some 0⟩,
        ⟨100, some 21, some (21/2), some (1331/1000), some (4641/4000), some 0,
          some 0⟩] : List PRow).filterMap (fun r => r.stratRet)).length = 2 from rfl]
      norm_num
    have hP2 : (calculate_period_metrics
        [⟨0, some 10, some 5, some (11/10), some (21/20), some 0, some 0⟩,
         ⟨100, some 21, some (21/2), some (1331/1000), some (4641/4000), some 0,
           some 0⟩]).spy.annualized_return = annualize (121/100) (1/6) := by
      simp only [calculate_period_metrics]
      rw [if_neg hne2]
      norm_num [periodLeg, cumprod]
    rw [hW2, hP2]
    have hb : (1 : ℝ) < ((121/100 : ℚ) : ℝ) := by norm_num
    have hne : annualize (121/100) (400/1461) ≠ annualize (121/100) (1/6) := by
      unfold annualize
      intro hc
      have he1 : (1 : ℝ) / (((400/1461 : ℚ)) : ℝ) = 1461/400 := by norm_num
      have he2 : (1 : ℝ) / (((1/6 : ℚ)) : ℝ) = 6 := by norm_num
      rw [he1, he2] at hc
      have heq : Real.rpow ((121/100 : ℚ) : ℝ) (1461/400)
          = Real.rpow ((121/100 : ℚ) : ℝ) 6 := by linarith
      have hlt : Real.rpow ((121/100 : ℚ) : ℝ) (1461/400)
          < Real.rpow ((121/100 : ℚ) : ℝ) 6 :=
        (Real.rpow_lt_rpow_left_iff hb).mpr (by norm_num)
      exact hlt.ne heq
    intro hc
    exact hne (Option.some.inj (Option.some.inj hc))

/-- Witness for claim C3 at a concrete clean two-row input. -/
theorem claim_C3_witness :
    ∃ M : FullMetrics,
      calculate_performance_metrics (toPRows [⟨0, none, some 10, none⟩, ⟨30, none, some 20, none⟩]) RISK_FREE_RATE = .ok (some M) ∧
      M.spy.n_months = (calculate_period_metrics (toPRows [⟨0, none, some 10, none⟩, ⟨30, none, some 20, none⟩])).n_months ∧
      M.strategy.n_months = (calculate_period_metrics (toPRows [⟨0, none, some 10, none⟩, ⟨30, none, some 20, none⟩])).n_months ∧
      M.spy.total_return = some ((calculate_period_metrics (toPRows [⟨0, none, some 10, none⟩, ⟨30, none, some 20, none⟩])).spy.total_return) ∧
      M.strategy.total_return
        = some ((calculate_period_metrics (toPRows [⟨0, none, some 10, none⟩, ⟨30, none, some 20, none⟩])).strategy.total_return) ∧
      M.spy.volatility = some ((calculate_period_metrics (toPRows [⟨0, none, some 10, none⟩, ⟨30, none, some 20, none⟩])).spy.volatility) ∧
      M.strategy.volatility
        = some ((calculate_period_metrics (toPRows [⟨0, none, some 10, none⟩, ⟨30, none, some 20, none⟩])).strategy.volatility) ∧
      M.spy.max_drawdown = (calculate_period_metrics (toPRows [⟨0, none, some 10, none⟩, ⟨30, none, some 20, none⟩])).spy.max_drawdown ∧
      M.strategy.max_drawdown = (calculate_period_metrics (toPRows [⟨0, none, some 10, none⟩, ⟨30, none, some 20, none⟩])).strategy.max_drawdown ∧
      M.spy.win_rate = (calculate_period_metrics (toPRows [⟨0, none, some 10, none⟩, ⟨30, none, some 20, none⟩])).spy.win_rate ∧
      M.strategy.win_rate = (calculate_period_metrics (toPRows [⟨0, none, some 10, none⟩, ⟨30, none, some 20, none⟩])).strategy.win_rate :=
  claim_C3_amended [⟨0, none, some 10, none⟩, ⟨30, none, some 20, none⟩]
    (by intro x hx; fin_cases hx <;> rfl)
    (by norm_num)
    (by decide)

theorem getD_sorted_mono (xs : List ℚ) (hs : List.Sorted (· ≤ ·) xs) (i j : ℕ)
    (hij : i ≤ j) (hj : j < xs.length) : xs.getD i 0 ≤ xs.getD j 0 := by
  rcases eq_or_lt_of_le hij with rfl | hlt
  · exact le_refl _
  · rw [List.getD_eq_getElem _ _ (lt_trans hlt hj), List.getD_eq_getElem _ _ hj]
    exact hs.rel_get_of_lt (show (⟨i, lt_trans hlt hj⟩ : Fin xs.length) < ⟨j, hj⟩ from hlt)

theorem interp_mono (xs : List ℚ) (hs : List.Sorted (· ≤ ·) xs) (h1 h2 : ℚ)
    (h1nn : 0 ≤ h1) (h12 : h1 ≤ h2) (h2le : h2 ≤ (xs.length : ℚ) - 1) :
    xs.getD (⌊h1⌋).toNat 0 + (h1 - ((⌊h1⌋).toNat : ℚ))
        * (xs.getD ((⌊h1⌋).toNat + 1) (xs.getD (⌊h1⌋).toNat 0) - xs.getD (⌊h1⌋).toNat 0)
      ≤ xs.getD (⌊h2⌋).toNat 0 + (h2 - ((⌊h2⌋).toNat : ℚ))
        * (xs.getD ((⌊h2⌋).toNat + 1) (xs.getD (⌊h2⌋).toNat 0) - xs.getD (⌊h2⌋).toNat 0) := by
  have h2nn : 0 ≤ h2 := le_trans h1nn h12
  have hfl1 : ((⌊h1⌋).toNat : ℤ) = ⌊h1⌋ := Int.toNat_of_nonneg (Int.floor_nonneg.mpr h1nn)
  have hfl2 : ((⌊h2⌋).toNat : ℤ) = ⌊h2⌋ := Int.toNat_of_nonneg (Int.floor_nonneg.mpr h2nn)
  have hg1a : (((⌊h1⌋).toNat : ℕ) : ℚ) ≤ h1 := by
    have := Int.floor_le h1
    rw [← hfl1] at this
    exact_mod_cast this
  have hg1b : h1 - (((⌊h1⌋).toNat : ℕ) : ℚ) ≤ 1 := by
    have := (Int.lt_floor_add_one h1).le
    rw [← hfl1] at this
    have h2c : h1 ≤ (((⌊h1⌋).toNat : ℕ) : ℚ) + 1 := by exact_mod_cast this
    linarith
  have hg2a : (((⌊h2⌋).toNat : ℕ) : ℚ) ≤ h2 := by
    have := Int.floor_le h2
    rw [← hfl2] at this
    exact_mod_cast this
  have hn1 : 1 ≤ xs.length := by
    by_contra hc
    push_neg at hc
    have h0 : xs.length = 0 := by omega
    rw [h0] at h2le
    norm_num at h2le
    linarith
  have hi2top : (⌊h2⌋).toNat ≤ xs.length - 1 := by
    have hfloor : ⌊h2⌋ ≤ (xs.length : ℤ) - 1 := by
      have : ((xs.length : ℚ) - 1) = (((xs.length : ℤ) - 1 : ℤ) : ℚ) := by push_cast; ring
      rw [this] at h2le
      calc ⌊h2⌋ ≤ ⌊(((xs.length : ℤ) - 1 : ℤ) : ℚ)⌋ := Int.floor_mono h2le
        _ = (xs.length : ℤ) - 1 := Int.floor_intCast _
    omega
  have hi12 : (⌊h1⌋).toNat ≤ (⌊h2⌋).toNat := by
    have := Int.floor_mono h12
    omega
  rcases eq_or_lt_of_le hi12 with heq | hlt
  · -- both indices fall in the same interpolation cell
    rw [← heq]
    have hΔ : 0 ≤ xs.getD ((⌊h1⌋).toNat + 1) (xs.getD (⌊h1⌋).toNat 0)
        - xs.getD (⌊h1⌋).toNat 0 := by
      by_cases hcase : (⌊h1⌋).toNat + 1 < xs.length
      · rw [getD_irrel xs ((⌊h1⌋).toNat + 1) (xs.getD (⌊h1⌋).toNat 0) 0 hcase]
        have := getD_sorted_mono xs hs (⌊h1⌋).toNat ((⌊h1⌋).toNat + 1) (by omega) hcase
        linarith
      · rw [List.getD_eq_getElem?_getD, List.getElem?_eq_none (by omega)]
        simp
    have hmul := mul_le_mul_of_nonneg_right (sub_le_sub_right h12 (((⌊h1⌋).toNat : ℚ))) hΔ
    linarith
  · -- the first cell ends strictly below the second
    have hi1n : (⌊h1⌋).toNat + 1 < xs.length := by omega
    have hi2n : (⌊h2⌋).toNat < xs.length := by omega
    have hval1 : xs.getD (⌊h1⌋).toNat 0 + (h1 - (((⌊h1⌋).toNat : ℕ) : ℚ))
        * (xs.getD ((⌊h1⌋).toNat + 1) (xs.getD (⌊h1⌋).toNat 0) - xs.getD (⌊h1⌋).toNat 0)
        ≤ xs.getD ((⌊h1⌋).toNat + 1) 0 := by
      rw [getD_irrel xs ((⌊h1⌋).toNat + 1) (xs.getD (⌊h1⌋).toNat 0) 0 hi1n]
      have hAB := getD_sorted_mono xs hs (⌊h1⌋).toNat ((⌊h1⌋).toNat + 1) (by omega) hi1n
      have hγ1 : 0 ≤ h1 - (((⌊h1⌋).toNat : ℕ) : ℚ) := by linarith
      nlinarith [mul_le_mul_of_nonneg_right hg1b (sub_nonneg.mpr hAB)]
    have hmid : xs.getD ((⌊h1⌋).toNat + 1) 0 ≤ xs.getD (⌊h2⌋).toNat 0 :=
      getD_sorted_mono xs hs ((⌊h1⌋).toNat + 1) (⌊h2⌋).toNat (by omega) hi2n
    have hΔ2 : 0 ≤ xs.getD ((⌊h2⌋).toNat + 1) (xs.getD (⌊h2⌋).toNat 0)
        - xs.getD (⌊h2⌋).toNat 0 := by
      by_cases hcase : (⌊h2⌋).toNat + 1 < xs.length
      · rw [getD_irrel xs ((⌊h2⌋).toNat + 1) (xs.getD (⌊h2⌋).toNat 0) 0 hcase]
        have := getD_sorted_mono xs hs (⌊h2⌋).toNat ((⌊h2⌋).toNat + 1) (by omega) hcase
        linarith
      · rw [List.getD_eq_getElem?_getD, List.getElem?_eq_none (by omega)]
        simp
    have hγ2 : 0 ≤ h2 - (((⌊h2⌋).toNat : ℕ) : ℚ) := by linarith
    nlinarith [mul_nonneg hγ2 hΔ2]

theorem quantileSorted_mono (xs : List ℚ) (hs : List.Sorted (· ≤ ·) xs) (hne : xs ≠ [])
    (q1 q2 : ℚ) (h0 : 0 ≤ q1) (h12 : q1 ≤ q2) (h21 : q2 ≤ 1) :
    quantileSorted xs q1 ≤ quantileSorted xs q2 := by
  have hn1 : 1 ≤ xs.length := List.length_pos.mpr hne
  have hn0 : (0 : ℚ) ≤ (xs.length : ℚ) - 1 := by
    have : (1 : ℚ) ≤ (xs.length : ℚ) := by exact_mod_cast hn1
    linarith
  simp only [quantileSorted]
  exact interp_mono xs hs (q1 * ((xs.length : ℚ) - 1)) (q2 * ((xs.length : ℚ) - 1))
    (mul_nonneg h0 hn0) (mul_le_mul_of_nonneg_right h12 hn0)
    (by calc q2 * ((xs.length : ℚ) - 1) ≤ 1 * ((xs.length : ℚ) - 1) :=
          mul_le_mul_of_nonneg_right h21 hn0
      _ = (xs.length : ℚ) - 1 := one_mul _)

theorem rollingQuantile_getD (xs : List OQ) (w m : ℕ) (q : ℚ) (i : ℕ) (hi : i < xs.length) :
    (rollingQuantile xs w m q).getD i none
      = if m ≤ (windowVals xs w i).length
        then some (quantileSorted ((windowVals xs w i).insertionSort (· ≤ ·)) q)
        else none := by
  unfold rollingQuantile
  exact getD_range_map _ _ i none hi

theorem rollingQuantile_none_iff (xs : List OQ) (w m : ℕ) (q : ℚ) (i : ℕ)
    (hi : i < xs.length) :
    (rollingQuantile xs w m q).getD i none = none ↔ ¬ (m ≤ (windowVals xs w i).length) := by
  rw [rollingQuantile_getD xs w m q i hi]
  split_ifs with h
  · simp [h]
  · simp [h]

theorem thresholds_sorted (sp : List OQ) (i : ℕ) (hi : i < sp.length)
    (q1 q2 : ℚ) (h0 : 0 ≤ q1) (h12 : q1 ≤ q2) (h21 : q2 ≤ 1) (p1 p2 : ℚ)
    (hp1 : (rollingQuantile sp 60 12 q1).getD i none = some p1)
    (hp2 : (rollingQuantile sp 60 12 q2).getD i none = some p2) : p1 ≤ p2 := by
  rw [rollingQuantile_getD sp 60 12 q1 i hi] at hp1
  rw [rollingQuantile_getD sp 60 12 q2 i hi] at hp2
  by_cases hc : 12 ≤ (windowVals sp 60 i).length
  · rw [if_pos hc] at hp1 hp2
    rw [← Option.some.inj hp1, ← Option.some.inj hp2]
    apply quantileSorted_mono _ (List.sorted_insertionSort _ _) _ q1 q2 h0 h12 h21
    intro hnil
    have hlen := List.Perm.length_eq (List.perm_insertionSort (· ≤ ·) (windowVals sp 60 i))
    rw [hnil] at hlen
    simp at hlen
    rw [← hlen] at hc
    simp at hc
  · rw [if_neg hc] at hp1
    cases hp1

theorem classifyRegime_none_spread (p1 p2 p3 p4 : OQ) :
    classifyRegime none p1 p2 p3 p4 = .unknown := by
  cases p1 <;> cases p2 <;> cases p3 <;> cases p4 <;> rfl

theorem classifyRegime_none_thresholds (s : OQ) :
    classifyRegime s none none none none = .unknown := by
  cases s <;> rfl

theorem classifyRegime_some_ne_unknown (v p1 p2 p3 p4 : ℚ) :
    classifyRegime (some v) (some p1) (some p2) (some p3) (some p4) ≠ .unknown := by
  simp only [classifyRegime, oleB, oltB, Bool.and_eq_true, decide_eq_true_eq,
    Option.isNone_some]
  split_ifs with hA hB hC hD hE hF
  · decide
  · decide
  · decide
  · decide
  · decide
  · cases hF
  · intro _
    have h1 : p1 < v := not_le.mp hA
    have h2 : p2 < v := by
      by_contra hc
      push_neg at hc
      exact hB ⟨h1, hc⟩
    have h3 : p3 < v := by
      by_contra hc
      push_neg at hc
      exact hC ⟨h2, hc⟩
    have h4 : p4 < v := by
      by_contra hc
      push_neg at hc
      exact hD ⟨h3, hc⟩
    exact hE h4

theorem classifyRegime_eval (v p1 p2 p3 p4 : ℚ) (ho1 : p1 ≤ p2) (ho2 : p2 ≤ p3)
    (ho3 : p3 ≤ p4) :
    (classifyRegime (some v) (some p1) (some p2) (some p3) (some p4) = .lowSpread ↔ v ≤ p1) ∧
    (classifyRegime (some v) (some p1) (some p2) (some p3) (some p4) = .moderateLow
      ↔ p1 < v ∧ v ≤ p2) ∧
    (classifyRegime (some v) (some p1) (some p2) (some p3) (some p4) = .moderateHigh
      ↔ p2 < v ∧ v ≤ p3) ∧
    (classifyRegime (some v) (some p1) (some p2) (some p3) (some p4) = .highSpread
      ↔ p3 < v ∧ v ≤ p4) ∧
    (classifyRegime (some v) (some p1) (some p2) (some p3) (some p4) = .veryHighSpread
      ↔ p4 < v) := by
  simp only [classifyRegime, oleB, oltB, Bool.and_eq_true, decide_eq_true_eq,
    Option.isNone_some]
  split_ifs with hA hB hC hD hE hF
  · refine ⟨iff_of_true rfl hA, iff_of_false (by decide) ?_, iff_of_false (by decide) ?_,
      iff_of_false (by decide) ?_, iff_of_false (by decide) ?_⟩
    · intro hc; linarith [hc.1]
    · intro hc; linarith [hc.1]
    · intro hc; linarith [hc.1]
    · intro hc; linarith
  · refine ⟨iff_of_false (by decide) hA, iff_of_true rfl hB, iff_of_false (by decide) ?_,
      iff_of_false (by decide) ?_, iff_of_false (by decide) ?_⟩
    · intro hc; linarith [hB.2, hc.1]
    · intro hc; linarith [hB.2, hc.1]
    · intro hc; linarith [hB.2]
  · refine ⟨iff_of_false (by decide) hA, iff_of_false (by decide) hB,
      iff_of_true rfl hC, iff_of_false (by decide) ?_, iff_of_false (by decide) ?_⟩
    · intro hc; linarith [hC.2, hc.1]
    · intro hc; linarith [hC.2]
  · refine ⟨iff_of_false (by decide) hA, iff_of_false (by decide) hB,
      iff_of_false (by decide) hC, iff_of_true rfl hD, iff_of_false (by decide) ?_⟩
    intro hc; linarith [hD.2]
  · have h1 : p1 < v := by linarith
    refine ⟨iff_of_false (by decide) hA, iff_of_false (by decide) hB,
      iff_of_false (by decide) hC, iff_of_false (by decide) hD, iff_of_true rfl hE⟩
  · cases hF
  · exfalso
    have h1 : p1 < v := not_le.mp hA
    have h2 : p2 < v := by
      by_contra hc
      push_neg at hc
      exact hB ⟨h1, hc⟩
    have h3 : p3 < v := by
      by_contra hc
      push_neg at hc
      exact hC ⟨h2, hc⟩
    have h4 : p4 < v := by
      by_contra hc
      push_neg at hc
      exact hD ⟨h3, hc⟩
    exact hE h4

/-- Claim C1: the regime at any timestamp is `Unknown` exactly when the
spread or any of the four rolling thresholds is missing there, and
otherwise it is the unique regime given by the ordered bands with inclusive
upper bounds: `spread ≤ P25` is LowSpread, `P25 < spread ≤ P50` ModerateLow,
`P50 < spread ≤ P75` ModerateHigh, `P75 < spread ≤ P90` HighSpread, and
`P90 < spread` VeryHighSpread. -/
theorem claim_C1 (sp : List OQ) (i : ℕ) (hi : i < sp.length) :
    ((regimeSeries sp).getD i .unknown = .unknown ↔
      (sp.getD i none = none ∨ (spreadP25 sp).getD i none = none ∨
       (spreadP50 sp).getD i none = none ∨ (spreadP75 sp).getD i none = none ∨
       (spreadP90 sp).getD i none = none)) ∧
    (∀ v p1 p2 p3 p4 : ℚ, sp.getD i none = some v →
      (spreadP25 sp).getD i none = some p1 → (spreadP50 sp).getD i none = some p2 →
      (spreadP75 sp).getD i none = some p3 → (spreadP90 sp).getD i none = some p4 →
      (((regimeSeries sp).getD i .unknown = .lowSpread ↔ v ≤ p1) ∧
       ((regimeSeries sp).getD i .unknown = .moderateLow ↔ p1 < v ∧ v ≤ p2) ∧
       ((regimeSeries sp).getD i .unknown = .moderateHigh ↔ p2 < v ∧ v ≤ p3) ∧
       ((regimeSeries sp).getD i .unknown = .highSpread ↔ p3 < v ∧ v ≤ p4) ∧
       ((regimeSeries sp).getD i .unknown = .veryHighSpread ↔ p4 < v))) := by
  have hr : (regimeSeries sp).getD i .unknown
      = classifyRegime (sp.getD i none) ((spreadP25 sp).getD i none)
        ((spreadP50 sp).getD i none) ((spreadP75 sp).getD i none)
        ((spreadP90 sp).getD i none) := by
    unfold regimeSeries
    exact getD_range_map _ _ i Regime.unknown hi
  constructor
  · rw [hr]
    constructor
    · intro hu
      by_contra hc
      push_neg at hc
      obtain ⟨h1, h2, h3, h4, h5⟩ := hc
      obtain ⟨v, hv⟩ := Option.ne_none_iff_exists'.mp h1
      obtain ⟨p1, hp1⟩ := Option.ne_none_iff_exists'.mp h2
      obtain ⟨p2, hp2⟩ := Option.ne_none_iff_exists'.mp h3
      obtain ⟨p3, hp3⟩ := Option.ne_none_iff_exists'.mp h4
      obtain ⟨p4, hp4⟩ := Option.ne_none_iff_exists'.mp h5
      rw [hv, hp1, hp2, hp3, hp4] at hu
      exact classifyRegime_some_ne_unknown v p1 p2 p3 p4 hu
    · intro hmiss
      have hwnone : (¬ (12 ≤ (windowVals sp 60 i).length)) →
          ((spreadP25 sp).getD i none = none ∧ (spreadP50 sp).getD i none = none ∧
           (spreadP75 sp).getD i none = none ∧ (spreadP90 sp).getD i none = none) :=
        fun hw => ⟨(rollingQuantile_none_iff sp 60 12 (1/4) i hi).mpr hw,
          (rollingQuantile_none_iff sp 60 12 (1/2) i hi).mpr hw,
          (rollingQuantile_none_iff sp 60 12 (3/4) i hi).mpr hw,
          (rollingQuantile_none_iff sp 60 12 (9/10) i hi).mpr hw⟩
      rcases hmiss with h | h | h | h | h
      · rw [h]
        exact classifyRegime_none_spread _ _ _ _
      · obtain ⟨ha, hb, hc2, hd⟩ :=
          hwnone ((rollingQuantile_none_iff sp 60 12 (1/4) i hi).mp h)
        rw [ha, hb, hc2, hd]
        exact classifyRegime_none_thresholds _
      · obtain ⟨ha, hb, hc2, hd⟩ :=
          hwnone ((rollingQuantile_none_iff sp 60 12 (1/2) i hi).mp h)
        rw [ha, hb, hc2, hd]
        exact classifyRegime_none_thresholds _
      · obtain ⟨ha, hb, hc2, hd⟩ :=
          hwnone ((rollingQuantile_none_iff sp 60 12 (3/4) i hi).mp h)
        rw [ha, hb, hc2, hd]
        exact classifyRegime_none_thresholds _
      · obtain ⟨ha, hb, hc2, hd⟩ :=
          hwnone ((rollingQuantile_none_iff sp 60 12 (9/10) i hi).mp h)
        rw [ha, hb, hc2, hd]
        exact classifyRegime_none_thresholds _
  · intro v p1 p2 p3 p4 hv hp1 hp2 hp3 hp4
    have ho1 : p1 ≤ p2 := thresholds_sorted sp i hi (1/4) (1/2) (by norm_num) (by norm_num)
      (by norm_num) p1 p2 hp1 hp2
    have ho2 : p2 ≤ p3 := thresholds_sorted sp i hi (1/2) (3/4) (by norm_num) (by norm_num)
      (by norm_num) p2 p3 hp2 hp3
    have ho3 : p3 ≤ p4 := thresholds_sorted sp i hi (3/4) (9/10) (by norm_num) (by norm_num)
      (by norm_num) p3 p4 hp3 hp4
    rw [hr, hv, hp1, hp2, hp3, hp4]
    exact classifyRegime_eval v p1 p2 p3 p4 ho1 ho2 ho3

/-- Witness for claim C1: twelve months of constant spread 5 (the minimum
window), so every threshold equals 5 and the final month classifies as
LowSpread via the inclusive `spread ≤ P25` band. -/
theorem claim_C1_witness :
    (regimeSeries (List.replicate 12 (some 5))).getD 11 .unknown = .lowSpread := by
  have hw : windowVals (List.replicate 12 (some 5)) 60 11 = List.replicate 12 5 := rfl
  have hsort : (List.replicate 12 (5 : ℚ)).insertionSort (· ≤ ·) = List.replicate 12 5 := by
    norm_num [List.replicate, List.insertionSort, List.orderedInsert]
  have hq25 : quantileSorted (List.replicate 12 (5 : ℚ)) (1/4) = 5 := by
    norm_num [quantileSorted, List.replicate, (show Int.toNat 2 = (2 : ℕ) from rfl)]
  have hq50 : quantileSorted (List.replicate 12 (5 : ℚ)) (1/2) = 5 := by
    norm_num [quantileSorted, List.replicate, (show Int.toNat 5 = (5 : ℕ) from rfl)]
  have hq75 : quantileSorted (List.replicate 12 (5 : ℚ)) (3/4) = 5 := by
    norm_num [quantileSorted, List.replicate, (show Int.toNat 8 = (8 : ℕ) from rfl)]
  have hq90 : quantileSorted (List.replicate 12 (5 : ℚ)) (9/10) = 5 := by
    norm_num [quantileSorted, List.replicate, (show Int.toNat 9 = (9 : ℕ) from rfl)]
  have hlen : (12 : ℕ) ≤ (windowVals (List.replicate 12 (some (5 : ℚ))) 60 11).length := by
    rw [hw]
    norm_num
  have hp25 : (spreadP25 (List.replicate 12 (some 5))).getD 11 none = some 5 := by
    rw [spreadP25, rollingQuantile_getD _ 60 12 _ 11 (by norm_num), if_pos hlen, hw, hsort,
      hq25]
  have hp50 : (spreadP50 (List.replicate 12 (some 5))).getD 11 none = some 5 := by
    rw [spreadP50, rollingQuantile_getD _ 60 12 _ 11 (by norm_num), if_pos hlen, hw, hsort,
      hq50]
  have hp75 : (spreadP75 (List.replicate 12 (some 5))).getD 11 none = some 5 := by
    rw [spreadP75, rollingQuantile_getD _ 60 12 _ 11 (by norm_num), if_pos hlen, hw, hsort,
      hq75]
  have hp90 : (spreadP90 (List.replicate 12 (some 5))).getD 11 none = some 5 := by
    rw [spreadP90, rollingQuantile_getD _ 60 12 _ 11 (by norm_num), if_pos hlen, hw, hsort,
      hq90]
  exact ((claim_C1 (List.replicate 12 (some 5)) 11 (by norm_num)).2 5 5 5 5 5 rfl
    hp25 hp50 hp75 hp90).1.mpr (by norm_num)
